import Mathlib

/-!
# Z-score outlier detection: serial versus parallel

A shallow embedding of `outlier_detection_enhanced.c`.

* The program text is embedded once, over an arithmetic `Arith α` that interprets the C
  operators on `double` (`+ - * /`, `sqrt`, `fabs`, `sin`, `cos`, `log`, `>`, the
  conversion from an integer, the constants `1e-12` and `M_PI`).
* `F64` models IEEE-754 binary64 with rounding to nearest, ties to even. `ieee L`
  interprets every operator by one correctly rounded operation, in the order the C
  expression prescribes (no fused multiply-add, no extended precision). The functions
  `sin`, `cos` and `log` of libm are not part of the repository: they are the parameter
  `L : Libm`.
* The rest of the platform is a parameter as well: the readings of `omp_get_wtime`, the
  values of `rand()` after `srand(42)` and `RAND_MAX`, the way OpenMP distributes the
  iterations of a loop over workers, and whether the build has OpenMP at all.
* An `int` is a 32-bit and a `long` a 64-bit two's complement integer: the value stored
  is `wrapInt`, respectively `wrapLong`, of the exact result (ISO C leaves signed
  overflow undefined; this is what the usual compilers produce).
  The one `long` result of the program that can leave the range is the product
  `N * outlier_percentage` of `generate_data`; the loop counters stay below `N`.
* An array `double *arr` with its length `long N` is a list.
* Closed statements are evaluated on `refLibm`, a table of the values glibc returns at the
  arguments they reach.
-/

set_option maxRecDepth 100000

namespace ZScore

/-! ## IEEE-754 binary64 -/

/-- A binary64 value: a NaN, a signed infinity, or the finite number
`(-1)^s * m * 2^e`. Canonical finite values have `e = -1074` and `m < 2^52`
(zeros and subnormals) or `2^52 ≤ m < 2^53` and `-1074 ≤ e ≤ 971`. -/
inductive F64 where
  | nan : F64
  | inf (s : Bool) : F64
  | fin (s : Bool) (m : Nat) (e : Int) : F64
deriving DecidableEq

namespace F64

/-- The zero of sign `s`. -/
def zero (s : Bool) : F64 := fin s 0 (-1074)

/-- Number of binary digits of `n`, by halving (the first argument is fuel). -/
def bitLenAux : Nat → Nat → Nat
  | 0, _ => 0
  | fuel + 1, n => if n = 0 then 0 else bitLenAux fuel (n / 2) + 1

/-- One step of the binary search for the number of digits: when `p.1` has more than
`k` digits, drop `k` of them and count them in `p.2`. -/
def bitsStep (p : Nat × Nat) (k : Nat) : Nat × Nat :=
  if 2 ^ k ≤ p.1 then (p.1 / 2 ^ k, p.2 + k) else p

/-- The step widths `2^j, 2^(j-1), ..., 2, 1` of the binary search. -/
def halvings : Nat → List Nat
  | 0 => [1]
  | j + 1 => 2 ^ (j + 1) :: halvings j

/-- Number of binary digits of `n < 2^4096`, by binary search. -/
def bitLenFast (n : Nat) : Nat :=
  let p := (halvings 11).foldl bitsStep (n, 0)
  if p.1 = 0 then p.2 else p.2 + 1

/-- Number of binary digits of `n`: the binary search below `2^4096`, halving above. -/
@[irreducible]
def bitLen (n : Nat) : Nat := if n < 2 ^ 2 ^ (11 + 1) then bitLenFast n else bitLenAux n n

/-- Numerator of `(n / d) * 2^k`. -/
def scaleNum (n : Nat) (k : Int) : Nat := if 0 ≤ k then n * 2 ^ k.toNat else n

/-- Denominator of `(n / d) * 2^k`. -/
def scaleDen (d : Nat) (k : Int) : Nat := if 0 ≤ k then d else d * 2 ^ (-k).toNat

/-- The value of sign `s` with the rounded significand `m ≤ 2^53` and exponent `t`:
a carry into the 54th digit moves the exponent up, an exponent above 971 overflows. -/
def pack (s : Bool) (m : Nat) (t : Int) : F64 :=
  if m = 2 ^ 53 then (if 971 < t + 1 then inf s else fin s (2 ^ 52) (t + 1))
  else if 971 < t then inf s else fin s m t

/-- Round the positive rational `(n / d) * 2^e` to the nearest binary64 value, ties
to even, and give it the sign `s`. The exponent `t` of the result is chosen so that
the quotient has 53 binary digits, but not below `-1074`; overflow gives infinity. -/
def roundPos (s : Bool) (n d : Nat) (e : Int) : F64 :=
  let t0 : Int := (bitLen n : Int) - (bitLen d : Int) - 53 + e
  let t1 : Int := if scaleNum n (e - t0) / scaleDen d (e - t0) < 2 ^ 53 then t0 else t0 + 1
  let t : Int := max t1 (-1074)
  let a := scaleNum n (e - t)
  let b := scaleDen d (e - t)
  let m := a / b
  let r := a % b
  pack s (if b < 2 * r ∨ (2 * r = b ∧ m % 2 = 1) then m + 1 else m) t

/-- Conversion of an integer (`int` or `long`) to `double`. -/
def ofInt (z : Int) : F64 :=
  if z = 0 then zero false else roundPos (decide (z < 0)) z.natAbs 1 0

/-- Unary minus. -/
def neg : F64 → F64
  | nan => nan
  | inf s => inf (!s)
  | fin s m e => fin (!s) m e

/-- The C function `fabs`. -/
def fabs : F64 → F64
  | nan => nan
  | inf _ => inf false
  | fin _ m e => fin false m e

/-- The integer `(-1)^s * m`. -/
def signed (s : Bool) (m : Nat) : Int := if s then -(m : Int) else (m : Int)

/-- Addition. An exact zero sum is `+0` unless both operands are negative. -/
def add : F64 → F64 → F64
  | nan, _ => nan
  | _, nan => nan
  | inf s1, inf s2 => if s1 = s2 then inf s1 else nan
  | inf s1, fin _ _ _ => inf s1
  | fin _ _ _, inf s2 => inf s2
  | fin s1 m1 e1, fin s2 m2 e2 =>
    let e := min e1 e2
    let c : Int := signed s1 (m1 * 2 ^ (e1 - e).toNat) + signed s2 (m2 * 2 ^ (e2 - e).toNat)
    if c = 0 then zero (s1 && s2) else roundPos (decide (c < 0)) c.natAbs 1 e

/-- Subtraction. -/
def sub (x y : F64) : F64 := add x (neg y)

/-- Multiplication. -/
def mul : F64 → F64 → F64
  | nan, _ => nan
  | _, nan => nan
  | inf s1, inf s2 => inf (xor s1 s2)
  | inf s1, fin s2 m2 _ => if m2 = 0 then nan else inf (xor s1 s2)
  | fin s1 m1 _, inf s2 => if m1 = 0 then nan else inf (xor s1 s2)
  | fin s1 m1 e1, fin s2 m2 e2 =>
    if m1 * m2 = 0 then zero (xor s1 s2) else roundPos (xor s1 s2) (m1 * m2) 1 (e1 + e2)

/-- Division. `0/0` and `inf/inf` are NaN, `x/0` is an infinity for `x ≠ 0`. -/
def div : F64 → F64 → F64
  | nan, _ => nan
  | _, nan => nan
  | inf _, inf _ => nan
  | inf s1, fin s2 _ _ => inf (xor s1 s2)
  | fin s1 _ _, inf s2 => zero (xor s1 s2)
  | fin s1 m1 e1, fin s2 m2 e2 =>
    if m2 = 0 then (if m1 = 0 then nan else inf (xor s1 s2))
    else if m1 = 0 then zero (xor s1 s2)
    else roundPos (xor s1 s2) m1 m2 (e1 - e2)

/-- Newton iteration for the integer square root, from a guess above the root. -/
def isqrtAux : Nat → Nat → Nat → Nat
  | 0, _, g => g
  | fuel + 1, n, g =>
    let next := (g + n / g) / 2
    if next < g then isqrtAux fuel n next else g

/-- Integer square root (rounded down). -/
def isqrt (n : Nat) : Nat := if n ≤ 1 then n else isqrtAux 64 n (2 ^ ((bitLen n + 1) / 2))

/-- The C function `sqrt`: NaN on a negative argument, `sqrt(-0) = -0`, otherwise
the correctly rounded root (the integer root of the scaled significand, with a
sticky digit when the root is inexact). -/
def sqrt : F64 → F64
  | nan => nan
  | inf s => if s then nan else inf false
  | fin s m e =>
    if m = 0 then zero s
    else if s then nan
    else
      let k : Int := if (e - 110) % 2 = 0 then 110 else 111
      let M := m * 2 ^ k.toNat
      let r := isqrt M
      let st := if r * r = M then 0 else 1
      roundPos false (2 * r + st) 2 ((e - k) / 2)

/-- The comparison `x < y`; false when either side is a NaN. -/
def lt : F64 → F64 → Bool
  | nan, _ => false
  | _, nan => false
  | inf s1, inf s2 => s1 && !s2
  | inf s1, fin _ _ _ => s1
  | fin _ _ _, inf s2 => !s2
  | fin s1 m1 e1, fin s2 m2 e2 =>
    let e := min e1 e2
    decide (signed s1 (m1 * 2 ^ (e1 - e).toNat) < signed s2 (m2 * 2 ^ (e2 - e).toNat))

/-- The comparison `x ≤ y`; false when either side is a NaN. -/
def le : F64 → F64 → Bool
  | nan, _ => false
  | _, nan => false
  | inf s1, inf s2 => s1 || !s2
  | inf s1, fin _ _ _ => s1
  | fin _ _ _, inf s2 => !s2
  | fin s1 m1 e1, fin s2 m2 e2 =>
    let e := min e1 e2
    decide (signed s1 (m1 * 2 ^ (e1 - e).toNat) ≤ signed s2 (m2 * 2 ^ (e2 - e).toNat))

/-- A value is a NaN. -/
def isNaN : F64 → Bool
  | nan => true
  | _ => false

/-- A finite value different from both zeros. -/
def isFiniteNonzero : F64 → Bool
  | fin _ m _ => decide (m ≠ 0)
  | _ => false

/-- A value that is `+0`, positive or `+inf`. -/
def isNonneg : F64 → Bool
  | nan => false
  | inf s => !s
  | fin s _ _ => !s

/-- A finite value that is `+0` or positive. -/
def isFiniteNonneg : F64 → Bool
  | fin s _ _ => !s
  | _ => false

end F64

/-! ## The arithmetic the program is written over -/

/-- An interpretation of the `double` operations the program uses. -/
structure Arith (α : Type) where
  /-- conversion of an `int` or `long` to `double`; also the literals `0.0`, `1.0`, `3.0` -/
  ofInt : Int → α
  /-- the literal `1e-12` -/
  eps : α
  /-- the constant `M_PI`, `3.14159265358979323846` -/
  pi : α
  add : α → α → α
  sub : α → α → α
  mul : α → α → α
  div : α → α → α
  sqrt : α → α
  fabs : α → α
  sin : α → α
  cos : α → α
  log : α → α
  /-- the comparison `x > y` -/
  gt : α → α → Bool

/-- The three libm functions the program calls; they are not part of the repository. -/
structure Libm where
  sin : F64 → F64
  cos : F64 → F64
  log : F64 → F64

/-- The values C (Annex F) fixes for the three functions: `sin(±0) = ±0`,
`cos(±0) = 1`, `log(1) = +0`. -/
def Libm.AnnexF (L : Libm) : Prop :=
  (∀ s, L.sin (F64.zero s) = F64.zero s) ∧ (∀ s, L.cos (F64.zero s) = F64.ofInt 1) ∧
    L.log (F64.ofInt 1) = F64.zero false

/-- IEEE-754 binary64 arithmetic over the libm `L`. -/
def ieee (L : Libm) : Arith F64 where
  ofInt := F64.ofInt
  eps := F64.roundPos false 1 (10 ^ 12) 0
  pi := F64.roundPos false 314159265358979323846 (10 ^ 20) 0
  add := F64.add
  sub := F64.sub
  mul := F64.mul
  div := F64.div
  sqrt := F64.sqrt
  fabs := F64.fabs
  sin := L.sin
  cos := L.cos
  log := L.log
  gt := fun x y => F64.lt y x

/-! ## The program -/

section Program

variable {α : Type}

/-- The struct `BenchmarkResult`. -/
structure BenchmarkResult (α : Type) where
  size : Int
  threads : Int
  serial_time : α
  parallel_time : α
  speedup : α
  efficiency : α
  outliers_found : Int

/-- What a detection call hands back: the returned count and the two out-parameters. -/
structure Detection (α : Type) where
  count : Int
  mean : α
  std_dev : α

/-- The body of the loop of `extra_compute`, run `n` more times from `r`. -/
def extra_compute_loop (A : Arith α) (x : α) : Nat → α → α
  | 0, r => r
  | n + 1, r =>
    extra_compute_loop A x n
      (A.add r (A.add (A.mul (A.sin x) (A.cos x)) (A.log (A.add (A.fabs x) (A.ofInt 1)))))

/-- The function `extra_compute`: 200 rounds of `r += sin(x)*cos(x) + log(fabs(x)+1.0)`. -/
def extra_compute (A : Arith α) (x : α) : α := extra_compute_loop A x 200 (A.ofInt 0)

/-- The two updates `sum += arr[i] + 1e-12 * e` and `sum_sq += arr[i]*arr[i] + 1e-12 * e`
of the first loop, on the pair `(sum, sum_sq)`. -/
def sumBody (A : Arith α) (acc : α × α) (x e : α) : α × α :=
  (A.add acc.1 (A.add x (A.mul A.eps e)), A.add acc.2 (A.add (A.mul x x) (A.mul A.eps e)))

/-- One iteration of the first loop: `e = extra_compute(arr[i])`, then the two updates. -/
def sumStep (A : Arith α) (acc : α × α) (x : α) : α × α :=
  sumBody A acc x (extra_compute A x)

/-- The argument `(sum_sq / N) - (mean * mean)` of `sqrt`, from the accumulators. -/
def varianceOf (A : Arith α) (acc : α × α) (N : Int) : α :=
  let mean := A.div acc.1 (A.ofInt N)
  A.sub (A.div acc.2 (A.ofInt N)) (A.mul mean mean)

/-- The pair `(mean, std_dev)` from the accumulators of the first loop. -/
def moments (A : Arith α) (acc : α × α) (N : Int) : α × α :=
  (A.div acc.1 (A.ofInt N), A.sqrt (varianceOf A acc N))

/-- The condition `fabs(arr[i] - mean) + 1e-12 * e > threshold` of the second loop. -/
def testBody (A : Arith α) (mean threshold x e : α) : Bool :=
  A.gt (A.add (A.fabs (A.sub x mean)) (A.mul A.eps e)) threshold

/-- The test of the second loop: `e = extra_compute(arr[i])`, then the condition. -/
def isOutlier (A : Arith α) (mean threshold x : α) : Bool :=
  testBody A mean threshold x (extra_compute A x)

/-- The value of an `int` after an arithmetic result `z`: 32-bit two's complement. -/
def wrapInt (z : Int) : Int := (z + 2 ^ 31) % 2 ^ 32 - 2 ^ 31

/-- One iteration of the second loop, on `outlier_count`. -/
def countStep (A : Arith α) (mean threshold : α) (c : Int) (x : α) : Int :=
  if isOutlier A mean threshold x then wrapInt (c + 1) else c

/-- The second loop and the return, from the accumulators of the first loop. -/
def finish (A : Arith α) (arr : List α) (k : α) (acc : α × α) : Detection α :=
  let ms := moments A acc arr.length
  { count := arr.foldl (countStep A ms.1 (A.mul k ms.2)) 0, mean := ms.1, std_dev := ms.2 }

/-- The function `detect_outliers_serial`; `N` is the length of `arr`. -/
def detect_outliers_serial (A : Arith α) (arr : List α) (k : α) : Detection α :=
  finish A arr k (arr.foldl (sumStep A) (A.ofInt 0, A.ofInt 0))

/-- The variance handed to `sqrt` by `detect_outliers_serial`. -/
def variance_serial (A : Arith α) (arr : List α) : α :=
  varianceOf A (arr.foldl (sumStep A) (A.ofInt 0, A.ofInt 0)) arr.length

/-- The first loop of `generate_data` with `n` elements to go: a Box-Muller draw per
element. `rand i` is what the `i`-th call of `rand()` after `srand(42)` returns, `t` the
number of calls made so far. -/
def gaussLoop (A : Arith α) (rand : Nat → Int) (RAND_MAX : Int) (mean std_dev : α) :
    Nat → Nat → List α
  | 0, _ => []
  | n + 1, t =>
    let u1 := A.div (A.add (A.ofInt (rand t)) (A.ofInt 1)) (A.add (A.ofInt RAND_MAX) (A.ofInt 2))
    let u2 := A.div (A.ofInt (rand (t + 1))) (A.ofInt RAND_MAX)
    let z := A.mul (A.sqrt (A.mul (A.ofInt (-2)) (A.log u1)))
      (A.cos (A.mul (A.mul (A.ofInt 2) A.pi) u2))
    A.add mean (A.mul std_dev z) :: gaussLoop A rand RAND_MAX mean std_dev n (t + 2)

/-- The second loop of `generate_data` with `n` overwrites to go, after `t` calls of
`rand()`: `arr[rand() % N] = mean + factor * std_dev * (±1)`. -/
def injectLoop (A : Arith α) (rand : Nat → Int) (RAND_MAX : Int) (N : Nat) (mean std_dev : α) :
    Nat → Nat → List α → List α
  | 0, _, arr => arr
  | n + 1, t, arr =>
    let idx := (Int.tmod (rand t) N).toNat
    let factor := A.add (A.ofInt 5)
      (A.mul (A.div (A.ofInt (rand (t + 1))) (A.ofInt RAND_MAX)) (A.ofInt 5))
    let sign : Int := if Int.tmod (rand (t + 2)) 2 ≠ 0 then 1 else -1
    injectLoop A rand RAND_MAX N mean std_dev n (t + 3)
      (arr.set idx (A.add mean (A.mul (A.mul factor std_dev) (A.ofInt sign))))

/-- The value of a `long` after an arithmetic result `z`: 64-bit two's complement. -/
def wrapLong (z : Int) : Int := (z + 2 ^ 63) % 2 ^ 64 - 2 ^ 63

/-- The number of overwrites `(N * outlier_percentage) / 100` of `generate_data`: the
product is a `long`, the division truncates, and a negative value runs the loop zero
times. -/
def num_outliers (N : Nat) (outlier_percentage : Int) : Nat :=
  (Int.tdiv (wrapLong ((N : Int) * outlier_percentage)) 100).toNat

/-- The function `generate_data`: the array it leaves in `arr`. The library function
`rand` and the constant `RAND_MAX` are not part of the repository. -/
def generate_data (A : Arith α) (rand : Nat → Int) (RAND_MAX : Int) (N : Nat)
    (mean std_dev : α) (outlier_percentage : Int) : List α :=
  injectLoop A rand RAND_MAX N mean std_dev (num_outliers N outlier_percentage) (2 * N)
    (gaussLoop A rand RAND_MAX mean std_dev N 0)

/-- How one OpenMP `parallel for` with a `+` reduction ran: for each worker, the
loop indices it executed, in its order; the workers in the order their private
results were combined into the shared variable. -/
abbrev Schedule := List (List Nat)

/-- Every index of `0 .. N-1` is executed exactly once. -/
def Schedule.Valid (sched : Schedule) (N : Nat) : Prop := List.Perm sched.flatten (List.range N)

instance (sched : Schedule) (N : Nat) : Decidable (Schedule.Valid sched N) := by
  unfold Schedule.Valid
  infer_instance

/-- The private `(sum, sum_sq)` of one worker of the first parallel loop. -/
def chunkSums (A : Arith α) (arr : List α) (chunk : List Nat) : α × α :=
  chunk.foldl (fun acc i => sumStep A acc (arr.getD i (A.ofInt 0))) (A.ofInt 0, A.ofInt 0)

/-- The `reduction(+:sum,sum_sq)`: the private pairs are added into the shared pair. -/
def reduceSums (A : Arith α) (init : α × α) (parts : List (α × α)) : α × α :=
  parts.foldl (fun a p => (A.add a.1 p.1, A.add a.2 p.2)) init

/-- The private `outlier_count` of one worker of the second parallel loop. -/
def chunkCount (A : Arith α) (mean threshold : α) (arr : List α) (chunk : List Nat) : Int :=
  chunk.foldl (fun c i => countStep A mean threshold c (arr.getD i (A.ofInt 0))) 0

/-- The `reduction(+:outlier_count)` on `int`. -/
def reduceCount (init : Int) (parts : List Int) : Int :=
  parts.foldl (fun a p => wrapInt (a + p)) init

/-- The function `detect_outliers_parallel`. `openmp` says whether the build defines
`_OPENMP`; `sched1` and `sched2` say how the two parallel loops ran. -/
def detect_outliers_parallel (A : Arith α) (openmp : Bool) (sched1 sched2 : Schedule)
    (arr : List α) (k : α) (num_threads : Int) : Detection α :=
  if num_threads = 1 then detect_outliers_serial A arr k
  else if !openmp then detect_outliers_serial A arr k
  else
    let acc := reduceSums A (A.ofInt 0, A.ofInt 0) (sched1.map (chunkSums A arr))
    let ms := moments A acc arr.length
    { count := reduceCount 0 (sched2.map (chunkCount A ms.1 (A.mul k ms.2) arr)),
      mean := ms.1, std_dev := ms.2 }

/-- The function `run_single_benchmark`. `wtime i` is what the `i`-th call of
`omp_get_wtime` of the run returns and `tick` the number of calls made so far; the
new number of calls is returned with the result. -/
def run_single_benchmark (A : Arith α) (openmp : Bool) (sched1 sched2 : Schedule)
    (wtime : Nat → α) (tick : Nat) (data : List α) (k : α) (num_threads : Int) :
    BenchmarkResult α × Nat :=
  let start := wtime tick
  let _unused := detect_outliers_serial A data k
  let serial_time := A.sub (wtime (tick + 1)) start
  let timed : α × Nat :=
    if num_threads = 1 then (serial_time, tick + 2)
    else
      let start2 := wtime (tick + 2)
      let _unused2 := detect_outliers_parallel A openmp sched1 sched2 data k num_threads
      (A.sub (wtime (tick + 3)) start2, tick + 4)
  let speedup := A.div serial_time timed.1
  let efficiency := A.div speedup (A.ofInt num_threads)
  let clamped := if A.gt efficiency (A.ofInt 1) then A.ofInt 1 else efficiency
  ({ size := data.length, threads := num_threads, serial_time := serial_time,
     parallel_time := timed.1, speedup := speedup, efficiency := clamped,
     outliers_found := 0 }, timed.2)

/-- The state of the sweep of `main`: the array `results[3]` (an entry is `none`
until it is written), the write index `count`, and the number of clock calls. -/
structure SweepState (α : Type) where
  results : List (Option (BenchmarkResult α))
  count : Nat
  tick : Nat

/-- One iteration of the sweep loop of `main` for the candidate `t`; `none` when the
write `results[count++] = r` falls outside the array. -/
def sweepStep (A : Arith α) (openmp : Bool) (sched1 sched2 : Schedule) (wtime : Nat → α)
    (data : List α) (max_threads : Int) (st : SweepState α) (t : Int) :
    Option (SweepState α) :=
  if max_threads < t then some st
  else
    let r := run_single_benchmark A openmp sched1 sched2 wtime st.tick data (A.ofInt 3) t
    if st.count < st.results.length then
      some { results := st.results.set st.count (some r.1), count := st.count + 1, tick := r.2 }
    else none

/-- The array `thread_counts` of `main`. -/
def thread_counts : List Int := [1, 2, 4]

/-- The sweep of `main`: the loop over `thread_counts`, from an unwritten `results[3]`
and `count = 0`. -/
def main_sweep (A : Arith α) (openmp : Bool) (sched1 sched2 : Schedule) (wtime : Nat → α)
    (tick : Nat) (data : List α) (max_threads : Int) : Option (SweepState α) :=
  thread_counts.foldlM (sweepStep A openmp sched1 sched2 wtime data max_threads)
    { results := [none, none, none], count := 0, tick := tick }

/-- The rows `results[0 .. count-1]` that `main` hands to `save_results_to_csv`. -/
def SweepState.table (st : SweepState α) : List (Option (BenchmarkResult α)) :=
  st.results.take st.count


/-! ## The specification of a detection call

The sums are taken in index order from `0.0`, as the sentences of the specification
read with the operations of the arithmetic. -/

/-- The sum `Σ (data[i] + 1e-12 * pad(data[i]))`, with `pad = extra_compute`. -/
def specSum (A : Arith α) (data : List α) : α :=
  data.foldl (fun s x => A.add s (A.add x (A.mul A.eps (extra_compute A x)))) (A.ofInt 0)

/-- The sum `Σ (data[i]^2 + 1e-12 * pad(data[i]))`. -/
def specSumSq (A : Arith α) (data : List α) : α :=
  data.foldl (fun s x => A.add s (A.add (A.mul x x) (A.mul A.eps (extra_compute A x))))
    (A.ofInt 0)

/-- The mean `sum / N`. -/
def specMean (A : Arith α) (data : List α) : α :=
  A.div (specSum A data) (A.ofInt data.length)

/-- The deviation `sqrt(sumSq / N - mean^2)`. -/
def specStdDev (A : Arith α) (data : List α) : α :=
  A.sqrt (A.sub (A.div (specSumSq A data) (A.ofInt data.length))
    (A.mul (specMean A data) (specMean A data)))

/-- The number of indices `i` with `|data[i] - mean| + 1e-12 * pad(data[i]) > k * stdDev`. -/
def specCount (A : Arith α) (data : List α) (k : α) : Nat :=
  data.countP (fun x =>
    A.gt (A.add (A.fabs (A.sub x (specMean A data))) (A.mul A.eps (extra_compute A x)))
      (A.mul k (specStdDev A data)))


/-- The position `rand() % N` written by overwrite number `j` (from `0`) of
`generate_data`: the `2 * N` calls of `rand()` of the first loop come before, and every
overwrite makes three calls. -/
def specOverwriteIndex (rand : Nat → Int) (N j : Nat) : Nat :=
  (Int.tmod (rand (2 * N + 3 * j)) N).toNat

/-- The value `mean + factor * std_dev * (±1)` written by overwrite number `j`, where
`factor = 5.0 + ((double)rand() / RAND_MAX) * 5.0` comes from the second of its three
calls of `rand()` and the sign is `+` when the third call is odd. -/
def specOverwriteValue (A : Arith α) (rand : Nat → Int) (RAND_MAX : Int) (N : Nat)
    (mean std_dev : α) (j : Nat) : α :=
  A.add mean
    (A.mul
      (A.mul
        (A.add (A.ofInt 5)
          (A.mul (A.div (A.ofInt (rand (2 * N + 3 * j + 1))) (A.ofInt RAND_MAX)) (A.ofInt 5)))
        std_dev)
      (A.ofInt (if Int.tmod (rand (2 * N + 3 * j + 2)) 2 ≠ 0 then 1 else -1)))

/-- Addition in the arithmetic is exact: associative and commutative with `0.0` neutral,
as on the real numbers. Binary64 addition is not (it is not associative). -/
structure Arith.ExactAdd (A : Arith α) : Prop where
  add_assoc : ∀ a b c, A.add (A.add a b) c = A.add a (A.add b c)
  add_comm : ∀ a b, A.add a b = A.add b a
  zero_add : ∀ a, A.add (A.ofInt 0) a = a

/-- Two doubles agree within the relative tolerance `1e-9`: `|a - b| < 1e-9 * |b|`. -/
def withinTolerance (a b : F64) : Bool :=
  F64.lt (F64.fabs (F64.sub a b)) (F64.mul (F64.roundPos false 1 (10 ^ 9) 0) (F64.fabs b))

/-! ## Concrete platforms for the examples -/

/-- Lookup in a table of argument and value pairs; NaN when the argument is absent. -/
def tableLookup (tbl : List (F64 × F64)) (x : F64) : F64 :=
  match tbl.find? (fun p => decide (p.1 = x)) with
  | some p => p.2
  | none => F64.nan

/-- A libm given by tables: the values fixed by Annex F at `±0` and `1`, and the values
glibc 2.36 (x86-64) returns at the other arguments the examples reach. It is only ever
applied at these arguments. -/
def refLibm : Libm where
  sin := tableLookup
    [(F64.fin false 0 (-1074), F64.fin false 0 (-1074)),  -- sin(0.0) = 0.0
     (F64.fin true 0 (-1074), F64.fin true 0 (-1074)),  -- sin(-0.0) = -0.0
     (F64.fin false 4503599627370496 (-52), F64.fin false 7579296827247854 (-53)),  -- sin(1.0) = 0.8414709848078965
     (F64.fin false 5000000000000000 1, F64.fin false 7022805232040869 (-53)),  -- sin(1e+16) = 0.7796880066069788
     (F64.fin true 5000000000000000 1, F64.fin true 7022805232040869 (-53)),  -- sin(-1e+16) = -0.7796880066069788
     (F64.fin false 5711959409115478 (-46), F64.fin true 8787673514357170 (-54)),  -- sin(81.17182530207114) = -0.4878138734263998
     (F64.fin false 6234293976724689 (-46), F64.fin false 5306920162966308 (-53)),  -- sin(88.5946459550935) = 0.5891864954772683
     (F64.fin false 7035360723506281 (-46), F64.fin true 4726944919154060 (-53)),  -- sin(99.97848911078621) = -0.5247963085379737
     (F64.fin false 7622424278903068 (-45), F64.fin false 4583561731407625 (-55)),  -- sin(216.6423280102398) = 0.12721939422498732
     (F64.fin false 8651055480819182 (-46), F64.fin true 7292541202943591 (-54)),  -- sin(122.93889257107341) = -0.40481735757678056
     (F64.fin false 7181477557870883 (-46), F64.fin false 8997325699229207 (-53)),  -- sin(102.05493421538681) = 0.9989038151335902
     (F64.fin false 8088223462022528 (-46), F64.fin false 8674996634682642 (-53)),  -- sin(114.94056852289032) = 0.9631181002370417
     (F64.fin false 7186474539048285 (-46), F64.fin false 9004565305831856 (-53)),  -- sin(102.12594558891347) = 0.9997075729275391
     (F64.fin false 4794318452313040 (-46), F64.fin true 7498844968669029 (-53)),  -- sin(68.13136298423274) = -0.8325390342310867
     (F64.fin false 6989171559471380 (-46), F64.fin true 8423659936522271 (-53)),  -- sin(99.3221016112696) = -0.935214121313951
     (F64.fin false 7076261767449710 (-46), F64.fin false 8289224096162241 (-58)),  -- sin(100.55972790396638) = 0.02875902327449054
     (F64.fin false 5720207673782356 (-46), F64.fin true 6888314562254640 (-54)),  -- sin(81.28904019290468) = -0.3823782713937929
     (F64.fin true 4884943302473128 (-47), F64.fin false 5458540065537784 (-55))]  -- sin(-34.70960978172235) = 0.15150492153997397
  cos := tableLookup
    [(F64.fin false 0 (-1074), F64.fin false 4503599627370496 (-52)),  -- cos(0.0) = 1.0
     (F64.fin true 0 (-1074), F64.fin false 4503599627370496 (-52)),  -- cos(-0.0) = 1.0
     (F64.fin false 4503599627370496 (-52), F64.fin false 4866610526750348 (-53)),  -- cos(1.0) = 0.5403023058681398
     (F64.fin false 5000000000000000 1, F64.fin true 5640021727566844 (-53)),  -- cos(1e+16) = -0.6261681981330862
     (F64.fin true 5000000000000000 1, F64.fin true 5640021727566844 (-53)),  -- cos(-1e+16) = -0.6261681981330862
     (F64.fin false 4668490508995501 (-51), F64.fin true 8674952304143561 (-54)),  -- cos(2.0732262613323287) = -0.48155658927926176
     (F64.fin false 5977542473239534 (-51), F64.fin true 7959900413967142 (-53)),  -- cos(2.6545621137861337) = -0.8837264713309636
     (F64.fin false 7077872521416755 (-52), F64.fin true 7444006899122748 (-63)),  -- cos(1.5716034077277186) = -0.0008070808452025967
     (F64.fin false 6109470049912776 (-50), F64.fin false 5897863035618925 (-53)),  -- cos(5.426299454136775) = 0.654794333822975
     (F64.fin false 5642170958769110 (-55), F64.fin false 8896978090026233 (-53)),  -- cos(0.15660170268242152) = 0.9877629925132673
     (F64.fin false 5414487038966160 (-50), F64.fin false 6952923680977430 (-56)),  -- cos(4.809030541755774) = 0.09649119948853299
     (F64.fin false 7681399363691880 (-53), F64.fin false 5925583944654826 (-53)),  -- cos(0.8528066434911752) = 0.6578719729704947
     (F64.fin false 5381171552829260 (-50), F64.fin false 4827947724350171 (-56)),  -- cos(4.779440445927161) = 0.06700123406575235
     (F64.fin false 7795190419988563 (-51), F64.fin true 8549478407076061 (-53)),  -- cos(3.4617599542434987) = -0.949182777607145
     (F64.fin false 5258072280325515 (-50), F64.fin true 6091756770940775 (-57)),  -- cos(4.67010632860855) = -0.042270053921966526
     (F64.fin false 6192781875705723 (-52), F64.fin false 7006711565340834 (-55)),  -- cos(1.3750738049779716) = 0.19447531266871915
     (F64.fin false 7338163740528707 (-51), F64.fin true 8945402267850252 (-53)),  -- cos(3.2587993372817734) = -0.9931391562301441
     (F64.fin false 5711959409115478 (-46), F64.fin false 7862813552785864 (-53)),  -- cos(81.17182530207114) = 0.8729476644637595
     (F64.fin false 6234293976724689 (-46), F64.fin false 7277790653660515 (-53)),  -- cos(88.5946459550935) = 0.8079970752095672
     (F64.fin false 7035360723506281 (-46), F64.fin false 7667178760527910 (-53)),  -- cos(99.97848911078621) = 0.8512278393855055
     (F64.fin false 7622424278903068 (-45), F64.fin true 8934012174298015 (-53)),  -- cos(216.6423280102398) = -0.9918746018187113
     (F64.fin false 8651055480819182 (-46), F64.fin true 8236161066628626 (-53)),  -- cos(122.93889257107341) = -0.9143975650692389
     (F64.fin false 7181477557870883 (-46), F64.fin false 6746019656705898 (-57)),  -- cos(102.05493421538681) = 0.04680991467155489
     (F64.fin false 8088223462022528 (-46), F64.fin true 4847296897385808 (-54)),  -- cos(114.94056852289032) = -0.26907903113359044
     (F64.fin false 7186474539048285 (-46), F64.fin true 6969984019976048 (-58)),  -- cos(102.12594558891347) = -0.0241819898132713
     (F64.fin false 4794318452313040 (-46), F64.fin false 4989685616396475 (-53)),  -- cos(68.13136298423274) = 0.5539663856964333
     (F64.fin false 6989171559471380 (-46), F64.fin false 6378586579622884 (-54)),  -- cos(99.3221016112696) = 0.3540826842631175
     (F64.fin false 7076261767449710 (-46), F64.fin false 9003473640661518 (-53)),  -- cos(100.55972790396638) = 0.99958637374681
     (F64.fin false 5720207673782356 (-46), F64.fin false 8322705031266238 (-53)),  -- cos(81.28904019290468) = 0.9240058752875411
     (F64.fin true 4884943302473128 (-47), F64.fin true 8903224679107234 (-53))]  -- cos(-34.70960978172235) = -0.9884565032155772
  log := tableLookup
    [(F64.fin false 4503599627370496 (-52), F64.fin false 0 (-1074)),  -- log(1.0) = 0.0
     (F64.fin false 4503599627370496 (-51), F64.fin false 6243314768165359 (-53)),  -- log(2.0) = 0.6931471805599453
     (F64.fin false 5000000000000000 1, F64.fin false 5184960683398422 (-47)),  -- log(1e+16) = 36.841361487904734
     (F64.fin false 4823527913798158 (-57), F64.fin true 7649605595009189 (-51)),  -- log(0.03346994843638039) = -3.397107304352249
     (F64.fin false 6220693399391392 (-53), F64.fin true 6667899818629498 (-54)),  -- log(0.6906357041138058) = -0.3701427952268187
     (F64.fin false 7431484819059253 (-55), F64.fin true 7109350198341495 (-52)),  -- log(0.20626513883179745) = -1.5785928560644302
     (F64.fin false 5733609463300768 (-53), F64.fin true 8136724037474502 (-54)),  -- log(0.6365585240365199) = -0.45167891857125786
     (F64.fin false 5434144756163417 (-54), F64.fin true 5397425468236772 (-52)),  -- log(0.30165563137193413) = -1.1984692057069362
     (F64.fin false 6575124116490219 (-54), F64.fin true 4539078536712288 (-52)),  -- log(0.36499270919477905) = -1.0078779004079692
     (F64.fin false 5726061452546139 (-54), F64.fin true 5161771063523131 (-52)),  -- log(0.3178602632517646) = -1.1461434165134523
     (F64.fin false 7691806494513327 (-56), F64.fin true 5037974344188798 (-51)),  -- log(0.1067452583896251) = -2.2373100457556907
     (F64.fin false 5885108235415309 (-56), F64.fin true 5640849920682817 (-51)),  -- log(0.08167228331711503) = -2.5050405841588206
     (F64.fin false 5085932073770174 (-53), F64.fin true 5148027474745261 (-53)),  -- log(0.5646518889979217) = -0.571545863386509
     (F64.fin false 8842909285690071 (-53), F64.fin true 5305816113863741 (-58)),  -- log(0.9817601493644713) = -0.018408247543870927
     (F64.fin false 8185669197616731 (-54), F64.fin true 7104756173535681 (-53)),  -- log(0.45439592075795127) = -0.7887863888207037
     (F64.fin false 5782328153293142 (-46), F64.fin false 4963881566626469 (-50)),  -- log(82.17182530207114) = 4.408812485424879
     (F64.fin false 6304662720902353 (-46), F64.fin false 5061252855870731 (-50)),  -- log(89.5946459550935) = 4.495295563230012
     (F64.fin false 7105729467683945 (-46), F64.fin false 5195923941289848 (-50)),  -- log(100.97848911078621) = 4.6149075150568635
     (F64.fin false 7657608650991900 (-45), F64.fin false 6060553711705925 (-50)),  -- log(217.6423280102398) = 5.382853018170697
     (F64.fin false 8721424224996846 (-46), F64.fin false 5426599583357832 (-50)),  -- log(123.93889257107341) = 4.819788642292117
     (F64.fin false 7251846302048547 (-46), F64.fin false 5218841265604443 (-50)),  -- log(103.05493421538681) = 4.635262187950356
     (F64.fin false 8158592206200192 (-46), F64.fin false 5351489761595517 (-50)),  -- log(115.94056852289032) = 4.753077719495306
     (F64.fin false 7256843283225949 (-46), F64.fin false 5219616814744359 (-50)),  -- log(103.12594558891347) = 4.635951013959846
     (F64.fin false 4864687196490704 (-46), F64.fin false 4769321582302273 (-50)),  -- log(69.13136298423274) = 4.236008506010934
     (F64.fin false 7059540303649044 (-46), F64.fin false 5188581397076457 (-50)),  -- log(100.3221016112696) = 4.608386025740836
     (F64.fin false 7146630511627374 (-46), F64.fin false 5202386114298517 (-50)),  -- log(101.55972790396638) = 4.620647077667532
     (F64.fin false 5790576417960020 (-46), F64.fin false 4965486474354748 (-50)),  -- log(82.28904019290468) = 4.4102379298347465
     (F64.fin false 5025680790828456 (-47), F64.fin false 8051129716326034 (-51))]  -- log(35.70960978172235) = 3.575419834123587

/-- A clock whose `i`-th reading is `i` seconds. -/
def steadyClock (i : Nat) : F64 := F64.ofInt i

/-- A clock too coarse for the run: every reading is `5.0`. -/
def stuckClock (_i : Nat) : F64 := F64.ofInt 5

/-- Exact rational arithmetic. The four field operations, `fabs` and `>` are exact; the
irrational functions are replaced by rational stand-ins (a Taylor polynomial for `sin`,
`cos` and `log`, the identity for `sqrt`). -/
def exactRat : Arith ℚ where
  ofInt := fun z => (z : ℚ)
  eps := 1 / 10 ^ 12
  pi := 314159265358979323846 / 10 ^ 20
  add := fun x y => x + y
  sub := fun x y => x - y
  mul := fun x y => x * y
  div := fun x y => x / y
  sqrt := fun x => x
  fabs := fun x => |x|
  sin := fun x => x - x ^ 3 / 6
  cos := fun x => 1 - x ^ 2 / 2
  log := fun x => (x - 1) - (x - 1) ^ 2 / 2
  gt := fun x y => decide (y < x)

/-- The dataset `[1e16, 1.0, -1e16, 1.0]`. -/
def cancellingData : List F64 :=
  [F64.ofInt 10000000000000000, F64.ofInt 1, F64.ofInt (-10000000000000000), F64.ofInt 1]

/-- Two workers, each taking one contiguous half of four iterations (the static
schedule of OpenMP), combined in worker order. -/
def halves : Schedule := [[0, 1], [2, 3]]

/-- A dataset of `2^31 + 1` elements: `1.0` followed by `2^31` zeros. -/
def bigData : List F64 := F64.ofInt 1 :: List.replicate (2 ^ 31) (F64.zero false)

/-- The mean and deviation of `bigData`: the zeros leave the accumulators of the first
loop where the first element put them. -/
def bigMoments : F64 × F64 :=
  moments (ieee refLibm) (sumStep (ieee refLibm) (F64.ofInt 0, F64.ofInt 0) (F64.ofInt 1))
    2147483649

/-- The first values `rand()` returns after `srand(42)` in glibc, where `RAND_MAX` is
`2147483647`. -/
def glibcRand (i : Nat) : Int :=
  [71876166, 708592740, 1483128881, 907283241, 442951012, 537146758, 1366999021, 1854614940,
   647800535, 53523743, 783815874, 1643643143, 682599717, 291474504, 229233696, 1633529762,
   175389892, 1183169448, 1212580698, 1596161259, 2108313867, 469976352, 975807809,
   1113801033, 1232315727, 1192349579, 1564541169, 1350496504, 1709672141, 1253520176,
   590056433, 1781548307].getD i 0

/-- The dataset `generate_data(arr, 12, 100.0, 15.0, p)` on glibc. -/
def generated (p : Int) : List F64 :=
  generate_data (ieee refLibm) glibcRand 2147483647 12 (F64.ofInt 100) (F64.ofInt 15) p

/-- The elements of `generated 9`, each with its value of `extra_compute`. -/
def generated9Pads : List (F64 × F64) :=
  [(F64.fin false 5711959409115478 (-46), F64.fin false 7006926366757385 (-43)),  -- 81.17182530207114, 796.5953007848594
   (F64.fin false 6234293976724689 (-46), F64.fin false 8745702893947950 (-43)),  -- 88.5946459550935, 994.2713056657283
   (F64.fin false 7035360723506281 (-46), F64.fin false 7332750863260354 (-43)),  -- 99.97848911078621, 833.6372574445197
   (F64.fin false 7622424278903068 (-45), F64.fin false 4623813484065879 (-42)),  -- 216.6423280102398, 1051.3334664360352
   (F64.fin false 8651055480819182 (-46), F64.fin false 4565130627581274 (-42)),  -- 122.93889257107341, 1037.9905296716229
   (F64.fin false 7181477557870883 (-46), F64.fin false 8236698080681396 (-43)),  -- 102.05493421538681, 936.4041580603721
   (F64.fin false 8088223462022528 (-46), F64.fin false 7905792656878213 (-43)),  -- 114.94056852289032, 898.784566843257
   (F64.fin false 7186474539048285 (-46), F64.fin false 8113122306925043 (-43)),  -- 102.12594558891347, 922.3552191230104
   (F64.fin false 4794318452313040 (-46), F64.fin false 6640715744966183 (-43)),  -- 68.13136298423274, 754.961973253351
   (F64.fin false 6989171559471380 (-46), F64.fin false 7524605284173448 (-43)),  -- 99.3221016112696, 855.4485798610413
   (F64.fin false 7076261767449710 (-46), F64.fin false 8179300785619389 (-43)),  -- 100.55972790396638, 929.878841090998
   (F64.fin false 5720207673782356 (-46), F64.fin false 7137005904621459 (-43))]  -- 81.28904019290468, 811.3836320969152

/-- The elements of `generated 17`, each with its value of `extra_compute`. -/
def generated17Pads : List (F64 × F64) :=
  [(F64.fin false 5711959409115478 (-46), F64.fin false 7006926366757385 (-43)),  -- 81.17182530207114, 796.5953007848594
   (F64.fin false 6234293976724689 (-46), F64.fin false 8745702893947950 (-43)),  -- 88.5946459550935, 994.2713056657283
   (F64.fin false 7035360723506281 (-46), F64.fin false 7332750863260354 (-43)),  -- 99.97848911078621, 833.6372574445197
   (F64.fin false 7622424278903068 (-45), F64.fin false 4623813484065879 (-42)),  -- 216.6423280102398, 1051.3334664360352
   (F64.fin true 4884943302473128 (-47), F64.fin false 6026491505633419 (-43)),  -- -34.70960978172235, 685.132761831644
   (F64.fin false 7181477557870883 (-46), F64.fin false 8236698080681396 (-43)),  -- 102.05493421538681, 936.4041580603721
   (F64.fin false 8088223462022528 (-46), F64.fin false 7905792656878213 (-43)),  -- 114.94056852289032, 898.784566843257
   (F64.fin false 7186474539048285 (-46), F64.fin false 8113122306925043 (-43)),  -- 102.12594558891347, 922.3552191230104
   (F64.fin false 4794318452313040 (-46), F64.fin false 6640715744966183 (-43)),  -- 68.13136298423274, 754.961973253351
   (F64.fin false 6989171559471380 (-46), F64.fin false 7524605284173448 (-43)),  -- 99.3221016112696, 855.4485798610413
   (F64.fin false 7076261767449710 (-46), F64.fin false 8179300785619389 (-43)),  -- 100.55972790396638, 929.878841090998
   (F64.fin false 5720207673782356 (-46), F64.fin false 7137005904621459 (-43))]  -- 81.28904019290468, 811.3836320969152

end Program

/-! ## Lemmas on the loops

The loops of a detection call, for every arithmetic. -/

section Loops

open F64

variable {α : Type}

theorem wrapInt_of_range (z : Int) (h1 : -(2 ^ 31) ≤ z) (h2 : z < 2 ^ 31) : wrapInt z = z := by
  unfold wrapInt
  omega

theorem wrapInt_wrapInt_add (a b : Int) : wrapInt (wrapInt a + b) = wrapInt (a + b) := by
  unfold wrapInt
  omega

theorem wrapInt_idem (z : Int) : wrapInt (wrapInt z) = wrapInt z := by
  unfold wrapInt
  omega

theorem wrapInt_add_wrapInt (a b : Int) : wrapInt (a + wrapInt b) = wrapInt (a + b) := by
  unfold wrapInt
  omega

theorem sumStep_fst (A : Arith α) (data : List α) (acc : α × α) :
    (data.foldl (sumStep A) acc).1 =
      data.foldl (fun s x => A.add s (A.add x (A.mul A.eps (extra_compute A x)))) acc.1 := by
  induction data generalizing acc with
  | nil => rfl
  | cons x xs ih => simp only [List.foldl_cons]; rw [ih]; rfl

theorem sumStep_snd (A : Arith α) (data : List α) (acc : α × α) :
    (data.foldl (sumStep A) acc).2 =
      data.foldl (fun s x => A.add s (A.add (A.mul x x) (A.mul A.eps (extra_compute A x))))
        acc.2 := by
  induction data generalizing acc with
  | nil => rfl
  | cons x xs ih => simp only [List.foldl_cons]; rw [ih]; rfl

/-- The second loop started at `c` counts `c` plus the elements that pass the test, as
long as the counter cannot leave the range of `int`. -/
theorem count_loop_eq (A : Arith α) (mean threshold : α) (data : List α) (c : Int)
    (h0 : 0 ≤ c) (h1 : c + data.length < 2 ^ 31) :
    data.foldl (countStep A mean threshold) c =
      c + (data.countP (isOutlier A mean threshold) : Nat) := by
  induction data generalizing c with
  | nil => simp
  | cons x xs ih =>
    simp only [List.foldl_cons, List.length_cons, Nat.cast_add, Nat.cast_one] at h1 ⊢
    by_cases hx : isOutlier A mean threshold x = true
    · have hw : wrapInt (c + 1) = c + 1 := wrapInt_of_range _ (by omega) (by omega)
      rw [show countStep A mean threshold c x = c + 1 by simp [countStep, hx, hw]]
      rw [ih (c + 1) (by omega) (by omega), List.countP_cons_of_pos _ _ hx]
      push_cast
      ring
    · rw [show countStep A mean threshold c x = c by simp [countStep, hx]]
      rw [ih c h0 (by omega), List.countP_cons_of_neg _ _ hx]

/-- A counting loop started inside the range of `int` ends at the wrapped total. -/
theorem count_loop_wrap (A : Arith α) (mean threshold : α) (data : List α) (c : Int)
    (hc : wrapInt c = c) :
    data.foldl (countStep A mean threshold) c =
      wrapInt (c + (data.countP (isOutlier A mean threshold) : Nat)) := by
  induction data generalizing c with
  | nil => simp [hc]
  | cons x xs ih =>
    simp only [List.foldl_cons]
    by_cases hx : isOutlier A mean threshold x = true
    · rw [show countStep A mean threshold c x = wrapInt (c + 1) by simp [countStep, hx]]
      rw [ih _ (wrapInt_idem _), List.countP_cons_of_pos _ _ hx, wrapInt_wrapInt_add]
      congr 1
      push_cast
      ring
    · rw [show countStep A mean threshold c x = c by simp [countStep, hx]]
      rw [ih c hc, List.countP_cons_of_neg _ _ hx]

theorem serial_mean_eq (A : Arith α) (data : List α) (k : α) :
    (detect_outliers_serial A data k).mean = specMean A data := by
  simp only [detect_outliers_serial, finish, moments, specMean, specSum]
  rw [sumStep_fst]

theorem serial_std_eq (A : Arith α) (data : List α) (k : α) :
    (detect_outliers_serial A data k).std_dev = specStdDev A data := by
  simp only [detect_outliers_serial, finish, moments, varianceOf, specStdDev, specMean,
    specSum, specSumSq]
  rw [sumStep_fst, sumStep_snd]

/-- The count returned is the number of elements that pass the test, wrapped to `int`. -/
theorem serial_count_wrap (A : Arith α) (data : List α) (k : α) :
    (detect_outliers_serial A data k).count = wrapInt (specCount A data k : Nat) := by
  have hm := serial_mean_eq A data k
  have hs := serial_std_eq A data k
  simp only [detect_outliers_serial, finish] at hm hs ⊢
  rw [count_loop_wrap A _ _ data 0 (by decide!), hm, hs]
  simp only [zero_add, specCount]
  rfl

/-- The count returned, from the moments of the first loop and the number of elements
that pass the test against them. -/
theorem count_of_moments (A : Arith α) (data : List α) (k mean sd : α) (c : Nat)
    (hm : moments A (data.foldl (sumStep A) (A.ofInt 0, A.ofInt 0)) (data.length : Int) =
      (mean, sd))
    (hc : data.countP (isOutlier A mean (A.mul k sd)) = c) :
    (detect_outliers_serial A data k).count = wrapInt c := by
  simp only [detect_outliers_serial, finish]
  rw [hm, count_loop_wrap A _ _ data 0 (by decide), hc, zero_add]

theorem foldl_replicate_fixed {β : Type} (f : β → α → β) (s : β) (z : α) (n : Nat)
    (h : f s z = s) : (List.replicate n z).foldl f s = s := by
  induction n with
  | zero => rfl
  | succ n ih => rw [List.replicate_succ, List.foldl_cons, h, ih]

/-- On a list of elements paired with their values of `extra_compute`, the first loop
is the fold of its two updates. -/
theorem foldl_sumStep_pads (A : Arith α) (pads : List (α × α)) (acc : α × α)
    (h : List.Forall (fun xe => extra_compute A xe.1 = xe.2) pads) :
    (pads.map Prod.fst).foldl (sumStep A) acc =
      pads.foldl (fun a xe => sumBody A a xe.1 xe.2) acc := by
  induction pads generalizing acc with
  | nil => rfl
  | cons xe rest ih =>
    rw [List.forall_cons] at h
    simp only [List.map_cons, List.foldl_cons]
    rw [ih _ h.2, sumStep, h.1]

/-- On a list of elements paired with their values of `extra_compute`, the elements that
pass the test are those whose pair satisfies the condition. -/
theorem countP_isOutlier_pads (A : Arith α) (mean threshold : α) (pads : List (α × α))
    (h : List.Forall (fun xe => extra_compute A xe.1 = xe.2) pads) :
    (pads.map Prod.fst).countP (isOutlier A mean threshold) =
      pads.countP (fun xe => testBody A mean threshold xe.1 xe.2) := by
  induction pads with
  | nil => rfl
  | cons xe rest ih =>
    rw [List.forall_cons] at h
    simp only [List.map_cons, List.countP_cons]
    rw [ih h.2, isOutlier, h.1]

theorem map_getD_range (l : List α) (d : α) :
    (List.range l.length).map (fun i => l.getD i d) = l := by
  apply List.ext_getElem
  · simp
  · intro i h1 h2
    simp [List.getD_eq_getElem, h2]

end Loops

/-! ## Lemmas on binary64

Rounding keeps the sign, `x / x` is `1.0`, small integers convert exactly, and the
order is total on values that are not NaN. -/

section Binary64

open F64

variable {α : Type}

theorem bitLenAux_bounds (fuel n : Nat) (hf : n ≤ fuel) (hn : n ≠ 0) :
    2 ^ (bitLenAux fuel n - 1) ≤ n ∧ n < 2 ^ bitLenAux fuel n := by
  induction fuel generalizing n with
  | zero => omega
  | succ f ih =>
    simp only [bitLenAux, hn, if_false, Nat.add_sub_cancel]
    by_cases h2 : n / 2 = 0
    · have h1 : n = 1 := by omega
      subst h1
      cases f <;> simp [bitLenAux]
    · have hle : n / 2 ≤ f := by omega
      obtain ⟨ha, hb⟩ := ih (n / 2) hle h2
      have hpos : 0 < bitLenAux f (n / 2) := by
        cases f with
        | zero => omega
        | succ g => simp [bitLenAux, h2]
      have hpow : 2 ^ bitLenAux f (n / 2) = 2 * 2 ^ (bitLenAux f (n / 2) - 1) := by
        rw [← pow_succ']
        congr 1
        omega
      constructor
      · rw [hpow]; omega
      · rw [pow_succ]; omega

theorem bitsFold_spec (j : Nat) (p : Nat × Nat) (h : p.1 < 2 ^ 2 ^ (j + 1)) :
    ((halvings j).foldl bitsStep p).1 < 2 ∧ p.2 ≤ ((halvings j).foldl bitsStep p).2 ∧
    ((halvings j).foldl bitsStep p).1 =
      p.1 / 2 ^ (((halvings j).foldl bitsStep p).2 - p.2) ∧
    (0 < p.1 → 0 < ((halvings j).foldl bitsStep p).1) := by
  induction j generalizing p with
  | zero =>
    have h4 : p.1 < 4 := by simpa using h
    simp only [halvings, List.foldl_cons, List.foldl_nil, bitsStep]
    by_cases h2 : 2 ^ 1 ≤ p.1
    · rw [if_pos h2]
      simp only [Nat.add_sub_cancel_left]
      refine ⟨?_, by omega, trivial, fun _ => ?_⟩ <;> simp only [pow_one] at h2 ⊢ <;> omega
    · rw [if_neg h2]
      simp only [pow_one, not_le] at h2
      refine ⟨h2, le_refl _, by simp, fun hp => hp⟩
  | succ j ih =>
    have hK : (0 : Nat) < 2 ^ 2 ^ (j + 1) := by positivity
    have hsq : 2 ^ 2 ^ (j + 1 + 1) = 2 ^ 2 ^ (j + 1) * 2 ^ 2 ^ (j + 1) := by
      rw [← pow_add]; congr 1; rw [pow_succ]; omega
    rw [hsq] at h
    simp only [halvings, List.foldl_cons]
    by_cases h2 : 2 ^ 2 ^ (j + 1) ≤ p.1
    · have hstep : bitsStep p (2 ^ (j + 1)) = (p.1 / 2 ^ 2 ^ (j + 1), p.2 + 2 ^ (j + 1)) := by
        simp only [bitsStep]; rw [if_pos h2]
      rw [hstep]
      have hlt : p.1 / 2 ^ 2 ^ (j + 1) < 2 ^ 2 ^ (j + 1) := Nat.div_lt_of_lt_mul h
      obtain ⟨a1, a2, a3, a4⟩ := ih (p.1 / 2 ^ 2 ^ (j + 1), p.2 + 2 ^ (j + 1)) hlt
      simp only at a1 a2 a3 a4
      refine ⟨a1, le_trans (Nat.le_add_right _ _) a2, ?_, fun _ => a4 (Nat.div_pos h2 hK)⟩
      rw [a3, Nat.div_div_eq_div_mul, ← pow_add]
      congr 2
      generalize 2 ^ (j + 1) = w at a2 ⊢
      omega
    · have hstep : bitsStep p (2 ^ (j + 1)) = p := by
        simp only [bitsStep]; rw [if_neg h2]
      rw [hstep]
      exact ih p (by omega)

theorem bitLenFast_bounds (n : Nat) (hn : n ≠ 0) (h : n < 2 ^ 2 ^ (11 + 1)) :
    2 ^ (bitLenFast n - 1) ≤ n ∧ n < 2 ^ bitLenFast n := by
  obtain ⟨a1, _, a3, a4⟩ := bitsFold_spec 11 (n, 0) h
  simp only [Nat.sub_zero] at a1 a3 a4
  have hq : (List.foldl bitsStep (n, 0) (halvings 11)).1 = 1 := by
    have := a4 (Nat.pos_of_ne_zero hn)
    omega
  have hdiv : n / 2 ^ (List.foldl bitsStep (n, 0) (halvings 11)).2 = 1 := by rw [← a3, hq]
  have hpos : 0 < 2 ^ (List.foldl bitsStep (n, 0) (halvings 11)).2 := by positivity
  have hb : bitLenFast n = (List.foldl bitsStep (n, 0) (halvings 11)).2 + 1 := by
    simp only [bitLenFast]
    rw [if_neg (by omega)]
  rw [hb, Nat.add_sub_cancel, pow_succ]
  have h1 := Nat.div_mul_le_self n (2 ^ (List.foldl bitsStep (n, 0) (halvings 11)).2)
  have h2 := Nat.lt_mul_div_succ n hpos
  rw [hdiv] at h1 h2
  constructor <;> omega

theorem bitLen_bounds (n : Nat) (hn : n ≠ 0) :
    2 ^ (bitLen n - 1) ≤ n ∧ n < 2 ^ bitLen n := by
  unfold bitLen
  by_cases h : n < 2 ^ 2 ^ (11 + 1)
  · rw [if_pos h]
    exact bitLenFast_bounds n hn h
  · rw [if_neg h]
    exact bitLenAux_bounds n n (le_refl n) hn

theorem bitLen_pos (n : Nat) (hn : n ≠ 0) : 0 < bitLen n := by
  have h := (bitLen_bounds n hn).2
  by_contra h0
  have : bitLen n = 0 := by omega
  rw [this] at h
  omega

theorem bitLen_le_of_lt (n k : Nat) (hn : n ≠ 0) (h : n < 2 ^ k) : bitLen n ≤ k := by
  have h1 := (bitLen_bounds n hn).1
  by_contra hc
  have hk : k ≤ bitLen n - 1 := by omega
  have := Nat.pow_le_pow_right (show 0 < 2 by decide!) hk
  omega

theorem pack_sign (s : Bool) (m : Nat) (t : Int) :
    pack s m t = inf s ∨ ∃ m1 t1, pack s m t = fin s m1 t1 := by
  unfold pack
  by_cases h1 : m = 2 ^ 53
  · by_cases h2 : 971 < t + 1
    · left; rw [if_pos h1, if_pos h2]
    · right; exact ⟨2 ^ 52, t + 1, by rw [if_pos h1, if_neg h2]⟩
  · by_cases h2 : 971 < t
    · left; rw [if_neg h1, if_pos h2]
    · right; exact ⟨m, t, by rw [if_neg h1, if_neg h2]⟩

/-- Rounding never produces a NaN and keeps the sign it is given. -/
theorem roundPos_sign (s : Bool) (n d : Nat) (e : Int) :
    roundPos s n d e = inf s ∨ ∃ m t, roundPos s n d e = fin s m t :=
  pack_sign s _ _

/-- A quotient of equal numbers rounds to `1.0`. -/
theorem roundPos_self (s : Bool) (n : Nat) (hn : n ≠ 0) :
    roundPos s n n 0 = fin s (2 ^ 52) (-52) := by
  have hpos : 0 < n := Nat.pos_of_ne_zero hn
  have q53 : n * 2 ^ 53 / n = 2 ^ 53 := Nat.mul_div_cancel_left _ hpos
  have q52 : n * 2 ^ 52 / n = 2 ^ 52 := Nat.mul_div_cancel_left _ hpos
  have r52 : n * 2 ^ 52 % n = 0 := Nat.mul_mod_right _ _
  have e0 : ((bitLen n : Int) - (bitLen n : Int) - 53 + 0) = -53 := by omega
  unfold roundPos
  simp only [e0]
  have k53 : (0 : Int) - (-53) = 53 := by norm_num
  have s1 : scaleNum n (0 - (-53)) = n * 2 ^ 53 := by simp [scaleNum]
  have s2 : scaleDen n (0 - (-53)) = n := by simp [scaleDen]
  rw [s1, s2, q53]
  simp only [lt_irrefl, if_false]
  have t1 : max ((-53 : Int) + 1) (-1074) = -52 := by norm_num
  rw [t1]
  have s3 : scaleNum n (0 - (-52)) = n * 2 ^ 52 := by simp [scaleNum]
  have s4 : scaleDen n (0 - (-52)) = n := by simp [scaleDen]
  rw [s3, s4, q52, r52]
  have hn0 : ¬ (n < 2 * 0) := by omega
  have hn1 : ¬ (2 * 0 = n) := by omega
  simp [hn0, hn1, pack]

theorem div_self_eq_one (s : Bool) (m : Nat) (e : Int) (hm : m ≠ 0) :
    F64.div (fin s m e) (fin s m e) = F64.ofInt 1 := by
  have h1 : F64.ofInt 1 = fin false (2 ^ 52) (-52) := by decide!
  rw [h1]
  simp only [F64.div, hm, if_false, sub_self, Bool.xor_self]
  exact roundPos_self false m hm

/-- An integer with at most 53 binary digits converts exactly. -/
theorem roundPos_nat_exact (s : Bool) (N : Nat) (hN : N ≠ 0) (h53 : N < 2 ^ 53) :
    roundPos s N 1 0 = fin s (N * 2 ^ (53 - bitLen N)) ((bitLen N : Int) - 53) := by
  obtain ⟨hlo, hhi⟩ := bitLen_bounds N hN
  have hpos := bitLen_pos N hN
  have hle := bitLen_le_of_lt N 53 hN h53
  obtain ⟨j, hj⟩ : ∃ j : Nat, bitLen N + j = 53 := ⟨53 - bitLen N, by omega⟩
  have hj2 : 53 - bitLen N = j := by omega
  have b1 : bitLen 1 = 1 := by decide!
  have hlo2 : 2 ^ 53 ≤ N * 2 ^ (j + 1) := by
    have : 2 ^ 53 = 2 ^ (bitLen N - 1) * 2 ^ (j + 1) := by
      rw [← pow_add]; congr 1; omega
    rw [this]
    exact Nat.mul_le_mul_right _ hlo
  have hhi2 : N * 2 ^ j < 2 ^ 53 := by
    have : 2 ^ 53 = 2 ^ bitLen N * 2 ^ j := by
      rw [← pow_add]; congr 1; omega
    rw [this]
    exact Nat.mul_lt_mul_of_pos_right hhi (by positivity)
  unfold roundPos
  rw [b1, hj2]
  have e0 : ((bitLen N : Int) - ((1 : Nat) : Int) - 53 + 0) = (bitLen N : Int) - 54 := by
    push_cast; ring
  have k0 : (0 : Int) - ((bitLen N : Int) - 54) = ((j + 1 : Nat) : Int) := by
    push_cast; omega
  have k1 : (0 : Int) - ((bitLen N : Int) - 54 + 1) = ((j : Nat) : Int) := by omega
  simp only [e0, k0]
  have s1 : scaleNum N ((j + 1 : Nat) : Int) = N * 2 ^ (j + 1) := by
    simp only [scaleNum, Int.toNat_ofNat, Int.ofNat_zero_le, if_true]
  have s2 : scaleDen 1 ((j + 1 : Nat) : Int) = 1 := by
    simp only [scaleDen, Int.ofNat_zero_le, if_true]
  rw [s1, s2, Nat.div_one, if_neg (show ¬ (N * 2 ^ (j + 1) < 2 ^ 53) by omega)]
  have t1 : max ((bitLen N : Int) - 54 + 1) (-1074) = (bitLen N : Int) - 54 + 1 := by
    apply max_eq_left; omega
  rw [t1, k1]
  have s3 : scaleNum N ((j : Nat) : Int) = N * 2 ^ j := by
    simp only [scaleNum, Int.toNat_ofNat, Int.ofNat_zero_le, if_true]
  have s4 : scaleDen 1 ((j : Nat) : Int) = 1 := by
    simp only [scaleDen, Int.ofNat_zero_le, if_true]
  rw [s3, s4, Nat.div_one, Nat.mod_one]
  have c1 : ¬ ((1 : Nat) < 2 * 0 ∨ (2 * 0 = 1 ∧ N * 2 ^ j % 2 = 1)) := by omega
  rw [if_neg c1]
  unfold pack
  rw [if_neg (show ¬ (N * 2 ^ j = 2 ^ 53) by omega),
    if_neg (show ¬ ((971 : Int) < (bitLen N : Int) - 54 + 1) by omega)]
  congr 1
  omega

/-- A thread count `1 ≤ n < 2^31` converts to a finite positive `double`. -/
theorem ofInt_pos (n : Int) (h1 : 1 ≤ n) (h2 : n < 2 ^ 31) :
    ∃ m t, F64.ofInt n = fin false m t ∧ m ≠ 0 := by
  have hN : n.natAbs ≠ 0 := by omega
  have h53 : n.natAbs < 2 ^ 53 := by omega
  refine ⟨n.natAbs * 2 ^ (53 - bitLen n.natAbs), (bitLen n.natAbs : Int) - 53, ?_, ?_⟩
  · unfold F64.ofInt
    rw [if_neg (by omega), roundPos_nat_exact _ _ hN h53]
    simp only [F64.fin.injEq, decide_eq_false_iff_not, and_true]
    omega
  · exact Nat.mul_ne_zero hN (by positivity)

theorem lt_false_of_le (a b : F64) (h : F64.le a b = true) : F64.lt b a = false := by
  cases a with
  | nan => simp [F64.le] at h
  | inf s1 =>
    cases b with
    | nan => simp [F64.le] at h
    | inf s2 => cases s1 <;> cases s2 <;> simp_all [F64.le, F64.lt]
    | fin s2 m2 e2 => cases s1 <;> simp_all [F64.le, F64.lt]
  | fin s1 m1 e1 =>
    cases b with
    | nan => simp [F64.le] at h
    | inf s2 => cases s2 <;> simp_all [F64.le, F64.lt]
    | fin s2 m2 e2 =>
      simp only [F64.le, decide_eq_true_eq] at h
      simp only [F64.lt, decide_eq_false_iff_not, not_lt]
      rw [min_comm e2 e1]
      exact h

theorem le_of_lt_false (a b : F64) (ha : F64.isNaN a = false) (hb : F64.isNaN b = false)
    (h : F64.lt b a = false) : F64.le a b = true := by
  cases a with
  | nan => simp [F64.isNaN] at ha
  | inf s1 =>
    cases b with
    | nan => simp [F64.isNaN] at hb
    | inf s2 => cases s1 <;> cases s2 <;> simp_all [F64.le, F64.lt]
    | fin s2 m2 e2 => cases s1 <;> simp_all [F64.le, F64.lt]
  | fin s1 m1 e1 =>
    cases b with
    | nan => simp [F64.isNaN] at hb
    | inf s2 => cases s2 <;> simp_all [F64.le, F64.lt]
    | fin s2 m2 e2 =>
      simp only [F64.lt, decide_eq_false_iff_not, not_lt] at h
      simp only [F64.le, decide_eq_true_eq]
      rw [min_comm e1 e2]
      exact h

theorem isNaN_false_of_isNonneg (x : F64) (h : F64.isNonneg x = true) : F64.isNaN x = false := by
  cases x <;> simp_all [F64.isNonneg, F64.isNaN]

theorem zero_le_of_isNonneg (x : F64) (h : F64.isNonneg x = true) :
    F64.le (F64.zero false) x = true := by
  cases x with
  | nan => simp [F64.isNonneg] at h
  | inf s => simpa [F64.isNonneg, F64.le, F64.zero] using h
  | fin s m e =>
    simp only [F64.isNonneg, Bool.not_eq_true'] at h
    subst h
    simp only [F64.le, F64.zero, F64.signed, zero_mul, decide_eq_true_eq]
    simp only [Bool.false_eq_true, if_false]
    positivity

theorem roundPos_isNonneg (n d : Nat) (e : Int) : F64.isNonneg (roundPos false n d e) = true := by
  rcases roundPos_sign false n d e with h | ⟨m, t, h⟩ <;> rw [h] <;> rfl

/-- A quotient of a non-negative value by a finite positive one is non-negative. -/
theorem div_isNonneg (x : F64) (m : Nat) (e : Int) (hx : F64.isNonneg x = true) (hm : m ≠ 0) :
    F64.isNonneg (F64.div x (fin false m e)) = true := by
  cases x with
  | nan => simp [F64.isNonneg] at hx
  | inf s =>
    simp only [F64.isNonneg, Bool.not_eq_true'] at hx
    subst hx
    rfl
  | fin s m1 e1 =>
    simp only [F64.isNonneg, Bool.not_eq_true'] at hx
    subst hx
    simp only [F64.div, hm, if_false]
    by_cases h1 : m1 = 0
    · simp [h1, F64.zero, F64.isNonneg]
    · simp only [h1, if_false, Bool.xor_false]
      exact roundPos_isNonneg _ _ _

/-- A quotient of two finite non-negative values that are not both zero is non-negative. -/
theorem div_isNonneg_of_finite (x y : F64) (hx : F64.isFiniteNonneg x = true)
    (hy : F64.isFiniteNonneg y = true)
    (hxy : F64.isFiniteNonzero x = true ∨ F64.isFiniteNonzero y = true) :
    F64.isNonneg (F64.div x y) = true := by
  cases x with
  | nan => simp [F64.isFiniteNonneg] at hx
  | inf s => simp [F64.isFiniteNonneg] at hx
  | fin s1 m1 e1 =>
    cases y with
    | nan => simp [F64.isFiniteNonneg] at hy
    | inf s => simp [F64.isFiniteNonneg] at hy
    | fin s2 m2 e2 =>
      simp only [F64.isFiniteNonneg, Bool.not_eq_true'] at hx hy
      subst hx hy
      by_cases h2 : m2 = 0
      · have h1 : m1 ≠ 0 := by
          rcases hxy with h | h
          · simpa [F64.isFiniteNonzero] using h
          · simp [F64.isFiniteNonzero, h2] at h
        simp [F64.div, h2, h1, F64.isNonneg]
      · exact div_isNonneg (fin false m1 e1) m2 e2 rfl h2

/-- The clamp `if (x > 1.0) x = 1.0` on a non-negative value: the result lies in `[0, 1]`
and is the smaller of `x` and `1.0`. -/
theorem clamp_spec (q : F64) (hq : F64.isNonneg q = true) :
    F64.le (F64.zero false) (if F64.lt (F64.ofInt 1) q then F64.ofInt 1 else q) = true ∧
    F64.le (if F64.lt (F64.ofInt 1) q then F64.ofInt 1 else q) (F64.ofInt 1) = true ∧
    (F64.le q (F64.ofInt 1) = true → (if F64.lt (F64.ofInt 1) q then F64.ofInt 1 else q) = q) ∧
    (F64.lt (F64.ofInt 1) q = true →
      (if F64.lt (F64.ofInt 1) q then F64.ofInt 1 else q) = F64.ofInt 1) := by
  by_cases h : F64.lt (F64.ofInt 1) q = true
  · rw [if_pos h]
    refine ⟨by decide!, by decide!, ?_, fun _ => rfl⟩
    intro hle
    rw [lt_false_of_le q (F64.ofInt 1) hle] at h
    exact absurd h (by simp)
  · rw [if_neg h]
    have h0 : F64.lt (F64.ofInt 1) q = false := by simpa using h
    refine ⟨zero_le_of_isNonneg q hq, ?_, fun _ => rfl, fun h1 => absurd h1 h⟩
    exact le_of_lt_false q (F64.ofInt 1) (isNaN_false_of_isNonneg q hq) (by decide!) h0

/-- The root of a negative value is a NaN, and only NaN and negative values have one. -/
theorem sqrt_isNaN_iff (v : F64) :
    F64.isNaN (F64.sqrt v) = true ↔
      (F64.isNaN v = true ∨ F64.lt v (F64.zero false) = true) := by
  cases v with
  | nan => simp [F64.sqrt, F64.isNaN]
  | inf s => cases s <;> simp [F64.sqrt, F64.isNaN, F64.lt, F64.zero]
  | fin s m e =>
    by_cases hm : m = 0
    · subst hm
      cases s <;> simp [F64.sqrt, F64.isNaN, F64.lt, F64.zero, F64.signed]
    · cases s
      · have hnn : F64.isNaN (F64.sqrt (fin false m e)) = false := by
          simp only [F64.sqrt, hm, if_false, Bool.false_eq_true]
          exact isNaN_false_of_isNonneg _ (roundPos_isNonneg _ _ _)
        rw [hnn]
        simp only [Bool.false_eq_true, F64.isNaN, F64.lt, F64.zero, F64.signed, false_or,
          zero_mul, if_false, decide_eq_true_eq, false_iff, not_lt]
        positivity
      · have hpos : 0 < m := Nat.pos_of_ne_zero hm
        simp only [F64.sqrt, hm, if_false, if_true, F64.isNaN, F64.lt, F64.zero, F64.signed,
          zero_mul, Bool.false_eq_true, false_or, true_iff, decide_eq_true_eq]
        have : (0 : Int) < ((m * 2 ^ (e - min e (-1074)).toNat : Nat) : Int) := by
          have : 0 < m * 2 ^ (e - min e (-1074)).toNat := Nat.mul_pos hpos (by positivity)
          exact_mod_cast this
        omega

end Binary64

/-! ## Known values of binary64

The model reproduces the bit patterns of well-known binary64 results. -/

section KnownValues

open F64

variable {α : Type}

/-- The quotient `1.0 / 3.0` is `0x1.5555555555555p-2`. -/
theorem div_one_three : F64.div (F64.ofInt 1) (F64.ofInt 3) = fin false 6004799503160661 (-54) := by
  decide!

/-- The root `sqrt(2.0)` is `0x1.6a09e667f3bcdp+0`. -/
theorem sqrt_two : F64.sqrt (F64.ofInt 2) = fin false 6369051672525773 (-52) := by
  decide!

/-- The literal `1e-12` is `0x1.19799812dea11p-40`. -/
theorem eps_value (L : Libm) : (ieee L).eps = fin false 4951760157141521 (-92) := by
  show roundPos false 1 (10 ^ 12) 0 = fin false 4951760157141521 (-92)
  decide!

/-- The constant `M_PI` is `0x1.921fb54442d18p+1`. -/
theorem pi_value (L : Libm) : (ieee L).pi = fin false 7074237752028440 (-51) := by
  show roundPos false 314159265358979323846 (10 ^ 20) 0 = fin false 7074237752028440 (-51)
  decide!

/-- The sum `0.1 + 0.2` is `0.30000000000000004`, that is `0x1.3333333333334p-2`. -/
theorem tenth_plus_fifth :
    F64.add (roundPos false 1 10 0) (roundPos false 2 10 0) = fin false 5404319552844596 (-54) := by
  decide!

/-- The sum `1e16 + 1.0` is `1e16`: a tie, rounded to the even significand. -/
theorem absorb_one :
    F64.add (F64.ofInt 10000000000000000) (F64.ofInt 1) = F64.ofInt 10000000000000000 := by
  decide!

/-- The product `1e200 * 1e200` overflows to `+inf`, and `0.0 / 0.0` is a NaN. -/
theorem overflow_and_invalid :
    F64.mul (roundPos false (10 ^ 200) 1 0) (roundPos false (10 ^ 200) 1 0) = inf false ∧
    F64.div (zero false) (zero false) = nan := by
  decide!

/-- The smallest subnormal halved rounds to zero, tie to even: `0x1p-1074 / 2.0 = 0.0`. -/
theorem underflow_to_zero :
    F64.div (fin false 1 (-1074)) (F64.ofInt 2) = zero false := by
  decide!

end KnownValues

/-! ## The serial detection (C1, C7)

The result of `detect_outliers_serial` against the formulas of the specification, and
the range of the returned count. -/

section SerialDetection

open F64

variable {α : Type}

/-- C7 (amended): for every dataset of length `N ≤ 2^31 - 1` and every threshold `k`, the
count `C` returned by `detect_outliers_serial` satisfies `0 ≤ C ≤ N`. -/
theorem serial_count_bounds (A : Arith α) (data : List α) (k : α)
    (hN : data.length < 2 ^ 31) :
    0 ≤ (detect_outliers_serial A data k).count ∧
    (detect_outliers_serial A data k).count ≤ data.length := by
  simp only [detect_outliers_serial, finish]
  rw [count_loop_eq A _ _ data 0 (le_refl 0) (by push_cast; omega)]
  have h := List.countP_le_length (isOutlier A
    (moments A (List.foldl (sumStep A) (A.ofInt 0, A.ofInt 0) data) data.length).1
    (A.mul k (moments A (List.foldl (sumStep A) (A.ofInt 0, A.ofInt 0) data) data.length).2))
    (l := data)
  constructor
  · positivity
  · simpa using h

/-- C7, an instance: the dataset `[1e16, 1.0, -1e16, 1.0]` with `k = 3.0`. -/
theorem serial_count_bounds_witness :
    0 ≤ (detect_outliers_serial (ieee refLibm) cancellingData (F64.ofInt 3)).count ∧
    (detect_outliers_serial (ieee refLibm) cancellingData (F64.ofInt 3)).count ≤
      cancellingData.length :=
  serial_count_bounds (ieee refLibm) cancellingData (F64.ofInt 3) (by decide!)

theorem bigData_length : (bigData.length : Int) = 2147483649 := by
  have h : bigData.length = 2 ^ 31 + 1 := by
    show (F64.ofInt 1 :: List.replicate (2 ^ 31) (F64.zero false)).length = _
    rw [List.length_cons, List.length_replicate]
  rw [h]
  norm_num

theorem bigData_acc :
    bigData.foldl (sumStep (ieee refLibm)) (F64.ofInt 0, F64.ofInt 0) =
      sumStep (ieee refLibm) (F64.ofInt 0, F64.ofInt 0) (F64.ofInt 1) := by
  unfold bigData
  rw [List.foldl_cons]
  exact foldl_replicate_fixed _ _ _ _ (by decide!)

theorem bigData_passing :
    bigData.countP (isOutlier (ieee refLibm) bigMoments.1
      ((ieee refLibm).mul (F64.ofInt (-1)) bigMoments.2)) = 2147483649 := by
  have h1 : isOutlier (ieee refLibm) bigMoments.1
      ((ieee refLibm).mul (F64.ofInt (-1)) bigMoments.2) (F64.ofInt 1) = true := by decide!
  have h0 : isOutlier (ieee refLibm) bigMoments.1
      ((ieee refLibm).mul (F64.ofInt (-1)) bigMoments.2) (F64.zero false) = true := by decide!
  unfold bigData
  rw [List.countP_cons_of_pos _ _ h1, List.countP_replicate, if_pos h0]
  norm_num

theorem bigData_detect :
    detect_outliers_serial (ieee refLibm) bigData (F64.ofInt (-1)) =
      { count := -2147483647, mean := bigMoments.1, std_dev := bigMoments.2 } := by
  have hms : moments (ieee refLibm)
      (bigData.foldl (sumStep (ieee refLibm)) ((ieee refLibm).ofInt 0, (ieee refLibm).ofInt 0))
      (bigData.length : Int) = bigMoments := by
    rw [show ((ieee refLibm).ofInt 0, (ieee refLibm).ofInt 0) = (F64.ofInt 0, F64.ofInt 0) from rfl,
      bigData_acc, bigData_length]
    rfl
  simp only [detect_outliers_serial, finish]
  rw [hms, count_loop_wrap _ _ _ bigData 0 (by decide!), bigData_passing]
  congr 1

/-- C7 fails as stated: on a dataset of `2^31 + 1` elements (`1.0` followed by zeros) with
`k = -1.0` every element passes the test, the `int` counter wraps, and the returned count is
`-2147483647`, below `0`. -/
theorem serial_count_negative :
    (bigData.length : Int) = 2147483649 ∧
    (detect_outliers_serial (ieee refLibm) bigData (F64.ofInt (-1))).count = -2147483647 ∧
    ¬ (0 ≤ (detect_outliers_serial (ieee refLibm) bigData (F64.ofInt (-1))).count) := by
  rw [bigData_detect, bigData_length]
  decide!

end SerialDetection

/-! ## Serial and parallel reduction (C2, C3)

The parallel loops against the serial loops: equal in exact arithmetic for every
schedule, not in binary64. -/

section Reduction

open F64

variable {α : Type}

theorem Arith.ExactAdd.add_zero {A : Arith α} (hA : A.ExactAdd) (a : α) :
    A.add a (A.ofInt 0) = a := by
  rw [hA.add_comm, hA.zero_add]

/-- In exact arithmetic a loop step adds the term of its element to both accumulators. -/
theorem sumStep_eq_add {A : Arith α} (hA : A.ExactAdd) (acc : α × α) (x : α) :
    sumStep A acc x =
      (A.add acc.1 (sumStep A (A.ofInt 0, A.ofInt 0) x).1,
       A.add acc.2 (sumStep A (A.ofInt 0, A.ofInt 0) x).2) := by
  simp only [sumStep, sumBody, hA.zero_add]

theorem sumStep_right_comm {A : Arith α} (hA : A.ExactAdd) (acc : α × α) (x y : α) :
    sumStep A (sumStep A acc x) y = sumStep A (sumStep A acc y) x := by
  rw [sumStep_eq_add hA (sumStep A acc x) y, sumStep_eq_add hA (sumStep A acc y) x,
    sumStep_eq_add hA acc x, sumStep_eq_add hA acc y]
  simp only [hA.add_assoc]
  rw [hA.add_comm (sumStep A (A.ofInt 0, A.ofInt 0) x).1,
    hA.add_comm (sumStep A (A.ofInt 0, A.ofInt 0) x).2]

/-- In exact arithmetic a worker started from `acc` ends at `acc` plus its private sums. -/
theorem chunk_fold_eq {A : Arith α} (hA : A.ExactAdd) (arr : List α) (chunk : List Nat)
    (acc : α × α) :
    chunk.foldl (fun a i => sumStep A a (arr.getD i (A.ofInt 0))) acc =
      (A.add acc.1 (chunkSums A arr chunk).1, A.add acc.2 (chunkSums A arr chunk).2) := by
  unfold chunkSums
  induction chunk generalizing acc with
  | nil => simp [hA.add_zero]
  | cons i is ih =>
    simp only [List.foldl_cons]
    rw [ih (sumStep A acc (arr.getD i (A.ofInt 0))),
      ih (sumStep A (A.ofInt 0, A.ofInt 0) (arr.getD i (A.ofInt 0))),
      sumStep_eq_add hA acc]
    simp only [hA.add_assoc]

theorem reduceSums_eq {A : Arith α} (hA : A.ExactAdd) (arr : List α) (sched : Schedule)
    (init : α × α) :
    reduceSums A init (sched.map (chunkSums A arr)) =
      sched.flatten.foldl (fun a i => sumStep A a (arr.getD i (A.ofInt 0))) init := by
  unfold reduceSums
  induction sched generalizing init with
  | nil => rfl
  | cons c cs ih =>
    simp only [List.map_cons, List.foldl_cons, List.flatten_cons, List.foldl_append]
    rw [ih, chunk_fold_eq hA arr c init]

/-- In exact arithmetic the first parallel loop leaves the accumulators of the serial loop. -/
theorem parallel_sums_eq {A : Arith α} (hA : A.ExactAdd) (arr : List α) (sched : Schedule)
    (hv : sched.Valid arr.length) :
    reduceSums A (A.ofInt 0, A.ofInt 0) (sched.map (chunkSums A arr)) =
      arr.foldl (sumStep A) (A.ofInt 0, A.ofInt 0) := by
  rw [reduceSums_eq hA]
  have hc : RightCommutative (fun (a : α × α) (i : Nat) => sumStep A a (arr.getD i (A.ofInt 0))) :=
    ⟨fun a i j => sumStep_right_comm hA a _ _⟩
  rw [List.Perm.foldl_eq hv]
  conv_rhs => rw [← map_getD_range arr (A.ofInt 0)]
  rw [List.foldl_map]

theorem chunkCount_eq (A : Arith α) (mean threshold : α) (arr : List α) (chunk : List Nat) :
    chunkCount A mean threshold arr chunk =
      wrapInt ((chunk.countP (fun i => isOutlier A mean threshold (arr.getD i (A.ofInt 0))) :
        Nat)) := by
  unfold chunkCount
  have h := count_loop_wrap A mean threshold (chunk.map (fun i => arr.getD i (A.ofInt 0))) 0
    (by decide!)
  rw [List.foldl_map, List.countP_map, zero_add] at h
  exact h

theorem reduceCount_eq (A : Arith α) (mean threshold : α) (arr : List α) (sched : Schedule)
    (init : Int) (hi : wrapInt init = init) :
    reduceCount init (sched.map (chunkCount A mean threshold arr)) =
      wrapInt (init + (sched.flatten.countP
        (fun i => isOutlier A mean threshold (arr.getD i (A.ofInt 0))) : Nat)) := by
  unfold reduceCount
  induction sched generalizing init with
  | nil => simp [hi]
  | cons c cs ih =>
    simp only [List.map_cons, List.foldl_cons, List.flatten_cons, List.countP_append]
    rw [ih _ (wrapInt_idem _), chunkCount_eq, wrapInt_add_wrapInt, wrapInt_wrapInt_add]
    congr 1
    push_cast
    ring

/-- The second parallel loop returns the count of the serial loop, for the same mean and
threshold: addition on `int` is exact even when it wraps. -/
theorem parallel_count_eq (A : Arith α) (mean threshold : α) (arr : List α) (sched : Schedule)
    (hv : sched.Valid arr.length) :
    reduceCount 0 (sched.map (chunkCount A mean threshold arr)) =
      arr.foldl (countStep A mean threshold) 0 := by
  rw [reduceCount_eq A mean threshold arr sched 0 (by decide!),
    count_loop_wrap A mean threshold arr 0 (by decide!), List.Perm.countP_eq _ hv]
  congr 2
  conv_rhs => rw [← map_getD_range arr (A.ofInt 0)]
  rw [List.countP_map]
  rfl

/-- C2 (amended): in exact arithmetic, for every dataset, threshold, thread count and
every way the two OpenMP loops distribute the indices `0 .. N-1` over workers and combine
the private results by addition, `detect_outliers_parallel` returns exactly the mean,
deviation and count of `detect_outliers_serial`. -/
theorem parallel_eq_serial_exact (A : Arith α) (hA : A.ExactAdd) (openmp : Bool)
    (sched1 sched2 : Schedule) (data : List α) (k : α) (num_threads : Int)
    (h1 : sched1.Valid data.length) (h2 : sched2.Valid data.length) :
    detect_outliers_parallel A openmp sched1 sched2 data k num_threads =
      detect_outliers_serial A data k := by
  unfold detect_outliers_parallel
  split_ifs with ht ho
  · rfl
  · rfl
  · simp only [detect_outliers_serial, finish]
    rw [parallel_sums_eq hA data sched1 h1, parallel_count_eq A _ _ data sched2 h2]

theorem exactRat_exactAdd : exactRat.ExactAdd where
  add_assoc := fun a b c => add_assoc a b c
  add_comm := fun a b => add_comm a b
  zero_add := fun a => by
    show ((0 : Int) : ℚ) + a = a
    simp

/-- C2, an instance: three rationals, two workers, in exact rational arithmetic. -/
theorem parallel_eq_serial_exact_witness :
    detect_outliers_parallel exactRat true [[0, 2], [1]] [[1], [2, 0]] [1, 2, 3] 3 2 =
      detect_outliers_serial exactRat [1, 2, 3] 3 :=
  parallel_eq_serial_exact exactRat exactRat_exactAdd true [[0, 2], [1]] [[1], [2, 0]]
    [1, 2, 3] 3 2 (by decide!) (by decide!)

/-- C2 fails as stated: in binary64, on the dataset `[1e16, 1.0, -1e16, 1.0]` with two
threads, each worker taking one contiguous half of the indices, the serial mean is
`0.7500000000573899`
and the parallel mean is `1.0`; they do not agree within the relative tolerance `1e-9`. -/
theorem parallel_differs_from_serial :
    Schedule.Valid halves cancellingData.length ∧
    (detect_outliers_serial (ieee refLibm) cancellingData (F64.ofInt 3)).mean =
      F64.fin false 6755399441572666 (-53) ∧
    (detect_outliers_parallel (ieee refLibm) true halves halves cancellingData
      (F64.ofInt 3) 2).mean = F64.ofInt 1 ∧
    withinTolerance
      (detect_outliers_parallel (ieee refLibm) true halves halves cancellingData
        (F64.ofInt 3) 2).mean
      (detect_outliers_serial (ieee refLibm) cancellingData (F64.ofInt 3)).mean = false := by
  have hs : (detect_outliers_serial (ieee refLibm) cancellingData (F64.ofInt 3)).mean =
      F64.fin false 6755399441572666 (-53) := by decide!
  have hp : (detect_outliers_parallel (ieee refLibm) true halves halves cancellingData
      (F64.ofInt 3) 2).mean = F64.ofInt 1 := by decide!
  refine ⟨by decide, hs, hp, ?_⟩
  rw [hs, hp]
  decide!

/-- C3: with `num_threads == 1`, and with every `num_threads` in a build without
OpenMP, `detect_outliers_parallel` returns exactly the count, mean and deviation of
`detect_outliers_serial` on the same arguments, however the parallel loops would run. -/
theorem parallel_delegates_to_serial (A : Arith α) (data : List α) (k : α) :
    (∀ (openmp : Bool) (sched1 sched2 : Schedule),
      detect_outliers_parallel A openmp sched1 sched2 data k 1 =
        detect_outliers_serial A data k) ∧
    (∀ (sched1 sched2 : Schedule) (num_threads : Int),
      detect_outliers_parallel A false sched1 sched2 data k num_threads =
        detect_outliers_serial A data k) := by
  constructor
  · intro openmp sched1 sched2
    simp [detect_outliers_parallel]
  · intro sched1 sched2 num_threads
    simp [detect_outliers_parallel]

end Reduction

/-! ## The benchmark (C4, C5, C8)

The fields of the result of `run_single_benchmark`. -/

section Benchmark

open F64

variable {α : Type}

/-- C4 (amended): with `num_threads == 1`, `run_single_benchmark` returns
`parallel_time` equal to `serial_time` exactly, whatever the measured serial time is; and
whenever the measured serial time is finite and not zero, `speedup` and `efficiency` are
exactly `1.0`. -/
theorem one_thread_benchmark (L : Libm) (openmp : Bool) (sched1 sched2 : Schedule)
    (wtime : Nat → F64) (tick : Nat) (data : List F64) (k : F64) :
    (run_single_benchmark (ieee L) openmp sched1 sched2 wtime tick data k 1).1.parallel_time =
      (run_single_benchmark (ieee L) openmp sched1 sched2 wtime tick data k 1).1.serial_time ∧
    (F64.isFiniteNonzero
        (run_single_benchmark (ieee L) openmp sched1 sched2 wtime tick data k 1).1.serial_time
          = true →
      (run_single_benchmark (ieee L) openmp sched1 sched2 wtime tick data k 1).1.speedup =
        F64.ofInt 1 ∧
      (run_single_benchmark (ieee L) openmp sched1 sched2 wtime tick data k 1).1.efficiency =
        F64.ofInt 1) := by
  refine ⟨rfl, ?_⟩
  intro h
  simp only [run_single_benchmark, if_true] at h ⊢
  generalize (ieee L).sub (wtime (tick + 1)) (wtime tick) = st at h ⊢
  cases st with
  | nan => simp [F64.isFiniteNonzero] at h
  | inf s => simp [F64.isFiniteNonzero] at h
  | fin s m e =>
    have hm : m ≠ 0 := by simpa [F64.isFiniteNonzero] using h
    have hd : (ieee L).div (fin s m e) (fin s m e) = F64.ofInt 1 := div_self_eq_one s m e hm
    have h1 : (ieee L).div (F64.ofInt 1) ((ieee L).ofInt 1) = F64.ofInt 1 :=
      show F64.div (F64.ofInt 1) (F64.ofInt 1) = F64.ofInt 1 by decide!
    have h2 : (ieee L).gt (F64.ofInt 1) ((ieee L).ofInt 1) = false :=
      show F64.lt (F64.ofInt 1) (F64.ofInt 1) = false by decide!
    refine ⟨hd, ?_⟩
    rw [hd, h1, h2]
    rfl

/-- C4, an instance: on a steady clock the measured serial time is `1.0`, and the
one-thread row has the parallel time `1.0` and speedup and efficiency `1.0`. -/
theorem one_thread_benchmark_witness :
    (run_single_benchmark (ieee refLibm) true [] [] steadyClock 0 [F64.zero false]
        (F64.ofInt 3) 1).1.serial_time = F64.ofInt 1 ∧
    (run_single_benchmark (ieee refLibm) true [] [] steadyClock 0 [F64.zero false]
        (F64.ofInt 3) 1).1.parallel_time =
      (run_single_benchmark (ieee refLibm) true [] [] steadyClock 0 [F64.zero false]
        (F64.ofInt 3) 1).1.serial_time ∧
    (run_single_benchmark (ieee refLibm) true [] [] steadyClock 0 [F64.zero false]
        (F64.ofInt 3) 1).1.speedup = F64.ofInt 1 ∧
    (run_single_benchmark (ieee refLibm) true [] [] steadyClock 0 [F64.zero false]
        (F64.ofInt 3) 1).1.efficiency = F64.ofInt 1 :=
  ⟨by decide!,
    (one_thread_benchmark refLibm true [] [] steadyClock 0 [F64.zero false] (F64.ofInt 3)).1,
    (one_thread_benchmark refLibm true [] [] steadyClock 0 [F64.zero false] (F64.ofInt 3)).2
      (by decide!)⟩

/-- C4 fails as stated: when the two clock readings around the serial call are equal the
measured serial time is `0.0`; the parallel time is still the serial time, but `speedup`
and `efficiency` of the one-thread row are NaN, not `1.0`. -/
theorem one_thread_benchmark_zero_time :
    (run_single_benchmark (ieee refLibm) true [] [] stuckClock 0 [F64.zero false]
        (F64.ofInt 3) 1).1.serial_time = F64.zero false ∧
    (run_single_benchmark (ieee refLibm) true [] [] stuckClock 0 [F64.zero false]
        (F64.ofInt 3) 1).1.parallel_time = F64.zero false ∧
    (run_single_benchmark (ieee refLibm) true [] [] stuckClock 0 [F64.zero false]
        (F64.ofInt 3) 1).1.speedup = F64.nan ∧
    (run_single_benchmark (ieee refLibm) true [] [] stuckClock 0 [F64.zero false]
        (F64.ofInt 3) 1).1.efficiency = F64.nan ∧
    (run_single_benchmark (ieee refLibm) true [] [] stuckClock 0 [F64.zero false]
        (F64.ofInt 3) 1).1.speedup ≠ F64.ofInt 1 ∧
    (run_single_benchmark (ieee refLibm) true [] [] stuckClock 0 [F64.zero false]
        (F64.ofInt 3) 1).1.efficiency ≠ F64.ofInt 1 := by
  decide!

/-- C5 (amended): for measured times that are finite, non-negative and not both zero, and
`1 ≤ num_threads < 2^31`, the result of `run_single_benchmark` has
`speedup = serial_time / parallel_time`, its efficiency is the smaller of `1.0` and
`speedup / num_threads`, and the efficiency lies in `[0, 1]`. -/
theorem benchmark_efficiency (L : Libm) (openmp : Bool) (sched1 sched2 : Schedule)
    (wtime : Nat → F64) (tick : Nat) (data : List F64) (k : F64) (n : Int)
    (hn1 : 1 ≤ n) (hn2 : n < 2 ^ 31)
    (hs : F64.isFiniteNonneg
      (run_single_benchmark (ieee L) openmp sched1 sched2 wtime tick data k n).1.serial_time
        = true)
    (hp : F64.isFiniteNonneg
      (run_single_benchmark (ieee L) openmp sched1 sched2 wtime tick data k n).1.parallel_time
        = true)
    (hnz : F64.isFiniteNonzero
        (run_single_benchmark (ieee L) openmp sched1 sched2 wtime tick data k n).1.serial_time
          = true ∨
      F64.isFiniteNonzero
        (run_single_benchmark (ieee L) openmp sched1 sched2 wtime tick data k n).1.parallel_time
          = true) :
    (run_single_benchmark (ieee L) openmp sched1 sched2 wtime tick data k n).1.speedup =
      F64.div
        (run_single_benchmark (ieee L) openmp sched1 sched2 wtime tick data k n).1.serial_time
        (run_single_benchmark (ieee L) openmp sched1 sched2 wtime tick data k n).1.parallel_time ∧
    (F64.le (F64.div
        (run_single_benchmark (ieee L) openmp sched1 sched2 wtime tick data k n).1.speedup
        (F64.ofInt n)) (F64.ofInt 1) = true →
      (run_single_benchmark (ieee L) openmp sched1 sched2 wtime tick data k n).1.efficiency =
        F64.div
          (run_single_benchmark (ieee L) openmp sched1 sched2 wtime tick data k n).1.speedup
          (F64.ofInt n)) ∧
    (F64.lt (F64.ofInt 1) (F64.div
        (run_single_benchmark (ieee L) openmp sched1 sched2 wtime tick data k n).1.speedup
        (F64.ofInt n)) = true →
      (run_single_benchmark (ieee L) openmp sched1 sched2 wtime tick data k n).1.efficiency =
        F64.ofInt 1) ∧
    F64.le (F64.zero false)
      (run_single_benchmark (ieee L) openmp sched1 sched2 wtime tick data k n).1.efficiency
        = true ∧
    F64.le
      (run_single_benchmark (ieee L) openmp sched1 sched2 wtime tick data k n).1.efficiency
      (F64.ofInt 1) = true := by
  generalize hr : (run_single_benchmark (ieee L) openmp sched1 sched2 wtime tick data k n).1 = r
    at hs hp hnz ⊢
  have hsp : r.speedup = F64.div r.serial_time r.parallel_time := by rw [← hr]; rfl
  have heff : r.efficiency =
      if F64.lt (F64.ofInt 1) (F64.div r.speedup (F64.ofInt n)) then F64.ofInt 1
      else F64.div r.speedup (F64.ofInt n) := by rw [← hr]; rfl
  obtain ⟨m, t, hmt, hm⟩ := ofInt_pos n hn1 hn2
  have hq : F64.isNonneg (F64.div r.speedup (F64.ofInt n)) = true := by
    rw [hmt, hsp]
    exact div_isNonneg _ m t (div_isNonneg_of_finite _ _ hs hp hnz) hm
  obtain ⟨c1, c2, c3, c4⟩ := clamp_spec _ hq
  rw [heff]
  exact ⟨hsp, c3, c4, c1, c2⟩

/-- C5, an instance: four threads on a steady clock. -/
theorem benchmark_efficiency_witness :
    F64.le (F64.zero false)
      (run_single_benchmark (ieee refLibm) false [] [] steadyClock 0 [F64.zero false]
        (F64.ofInt 3) 4).1.efficiency = true ∧
    F64.le
      (run_single_benchmark (ieee refLibm) false [] [] steadyClock 0 [F64.zero false]
        (F64.ofInt 3) 4).1.efficiency (F64.ofInt 1) = true :=
  (benchmark_efficiency refLibm false [] [] steadyClock 0 [F64.zero false] (F64.ofInt 3) 4
    (by decide!) (by decide!) (by decide!) (by decide!) (Or.inl (by decide!))).2.2.2

/-- C5 fails as stated: when both measured times are `0.0`, the efficiency of the
two-thread row is NaN, which is not in `[0, 1]`. -/
theorem benchmark_efficiency_zero_times :
    (run_single_benchmark (ieee refLibm) false [] [] stuckClock 0 [F64.zero false]
        (F64.ofInt 3) 2).1.serial_time = F64.zero false ∧
    (run_single_benchmark (ieee refLibm) false [] [] stuckClock 0 [F64.zero false]
        (F64.ofInt 3) 2).1.parallel_time = F64.zero false ∧
    (run_single_benchmark (ieee refLibm) false [] [] stuckClock 0 [F64.zero false]
        (F64.ofInt 3) 2).1.efficiency = F64.nan ∧
    F64.le (F64.zero false)
      (run_single_benchmark (ieee refLibm) false [] [] stuckClock 0 [F64.zero false]
        (F64.ofInt 3) 2).1.efficiency = false := by
  decide!

/-- C8: the result of `run_single_benchmark` has `outliers_found = 0`, `size = N` and
`threads = num_threads`, whatever the dataset, the threshold, the clock and the
parallel execution are. -/
theorem benchmark_bookkeeping (A : Arith α) (openmp : Bool) (sched1 sched2 : Schedule)
    (wtime : Nat → α) (tick : Nat) (data : List α) (k : α) (num_threads : Int) :
    (run_single_benchmark A openmp sched1 sched2 wtime tick data k num_threads).1.outliers_found
        = 0 ∧
    (run_single_benchmark A openmp sched1 sched2 wtime tick data k num_threads).1.size
        = data.length ∧
    (run_single_benchmark A openmp sched1 sched2 wtime tick data k num_threads).1.threads
        = num_threads :=
  ⟨rfl, rfl, rfl⟩

end Benchmark

/-! ## The sweep of `main` (C6) -/

section Sweep

open F64

variable {α : Type}

/-- C6: for every maximum thread count `m`, the sweep of `main` never writes outside
`results[3]` and builds a table with exactly one row for each candidate `t` of
`[1, 2, 4]` with `t ≤ m`, in that order and with `threads = t`, and no other row; the
table has at most 3 rows (the array keeps its 3 entries) and is empty when `m < 1`. -/
theorem main_sweep_table (A : Arith α) (openmp : Bool) (sched1 sched2 : Schedule)
    (wtime : Nat → α) (tick : Nat) (data : List α) (m : Int) :
    ∃ st, main_sweep A openmp sched1 sched2 wtime tick data m = some st ∧
      st.table.map (Option.map BenchmarkResult.threads) =
        (([1, 2, 4] : List Int).filter (fun t => decide (t ≤ m))).map some ∧
      st.count = (([1, 2, 4] : List Int).filter (fun t => decide (t ≤ m))).length ∧
      st.table.length = st.count ∧
      st.count ≤ 3 ∧ st.results.length = 3 ∧
      (m < 1 → st.table = []) := by
  by_cases h1 : m < 1
  · have h2 : m < 2 := by omega
    have h4 : m < 4 := by omega
    have n1 : ¬ (1 ≤ m) := by omega
    have n2 : ¬ (2 ≤ m) := by omega
    have n4 : ¬ (4 ≤ m) := by omega
    simp [main_sweep, sweepStep, thread_counts, SweepState.table, h1, h2, h4, n1, n2, n4]
  · by_cases h2 : m < 2
    · have h4 : m < 4 := by omega
      have n1 : 1 ≤ m := by omega
      have n2 : ¬ (2 ≤ m) := by omega
      have n4 : ¬ (4 ≤ m) := by omega
      simp [main_sweep, sweepStep, thread_counts, SweepState.table, h1, h2, h4, n1, n2, n4,
        run_single_benchmark]
    · by_cases h4 : m < 4
      · have n1 : 1 ≤ m := by omega
        have n2 : 2 ≤ m := by omega
        have n4 : ¬ (4 ≤ m) := by omega
        simp [main_sweep, sweepStep, thread_counts, SweepState.table, h1, h2, h4, n1, n2, n4,
          run_single_benchmark]
      · have n1 : 1 ≤ m := by omega
        have n2 : 2 ≤ m := by omega
        have n4 : 4 ≤ m := by omega
        simp [main_sweep, sweepStep, thread_counts, SweepState.table, h1, h2, h4, n1, n2, n4,
          run_single_benchmark]

end Sweep

/-! ## The variance of a single element (C9) -/

section SingleElement

open F64

variable {α : Type}

/-- With a libm that honours Annex F, `extra_compute(+0)` is `+0`. -/
theorem extra_compute_zero (L : Libm) (hL : L.AnnexF) :
    extra_compute (ieee L) (F64.zero false) = F64.zero false := by
  obtain ⟨hsin, hcos, hlog⟩ := hL
  have hstep : ∀ n, extra_compute_loop (ieee L) (F64.zero false) n (F64.zero false) =
      F64.zero false := by
    intro n
    induction n with
    | zero => rfl
    | succ n ih =>
      have hbody : (ieee L).add (F64.zero false)
          ((ieee L).add ((ieee L).mul ((ieee L).sin (F64.zero false))
              ((ieee L).cos (F64.zero false)))
            ((ieee L).log ((ieee L).add ((ieee L).fabs (F64.zero false)) ((ieee L).ofInt 1)))) =
          F64.zero false := by
        have h1 : (ieee L).add ((ieee L).fabs (F64.zero false)) ((ieee L).ofInt 1) =
            F64.ofInt 1 := show F64.add (F64.fabs (F64.zero false)) (F64.ofInt 1) = F64.ofInt 1 by
          decide!
        rw [h1]
        show F64.add (F64.zero false)
          (F64.add (F64.mul (L.sin (F64.zero false)) (L.cos (F64.zero false)))
            (L.log (F64.ofInt 1))) = F64.zero false
        rw [hsin, hcos, hlog]
        decide!
      show extra_compute_loop (ieee L) (F64.zero false) n _ = F64.zero false
      rw [hbody]
      exact ih
  exact hstep 200

/-- For every libm that honours Annex F, the variance of the dataset `[+0]` is `+0`
and the deviation returned is `+0`, not a NaN. -/
theorem single_zero_variance (L : Libm) (hL : L.AnnexF) (k : F64) :
    variance_serial (ieee L) [F64.zero false] = F64.zero false ∧
    (detect_outliers_serial (ieee L) [F64.zero false] k).std_dev = F64.zero false := by
  have hv : variance_serial (ieee L) [F64.zero false] = F64.zero false := by
    simp only [variance_serial, varianceOf, List.foldl_cons, List.foldl_nil, sumStep]
    rw [extra_compute_zero L hL]
    simp only [ieee, sumBody]
    decide!
  refine ⟨hv, ?_⟩
  show F64.sqrt (variance_serial (ieee L) [F64.zero false]) = F64.zero false
  rw [hv]
  decide!

/-- C9 (amended): no guard is applied before `sqrt`: for a single-element dataset the
deviation returned by `detect_outliers_serial` is a NaN exactly when the variance
`sum_sq / 1 - mean * mean` handed to `sqrt` is negative or a NaN. -/
theorem single_element_std_nan_iff (L : Libm) (x k : F64) :
    F64.isNaN (detect_outliers_serial (ieee L) [x] k).std_dev = true ↔
      (F64.isNaN (variance_serial (ieee L) [x]) = true ∨
        F64.lt (variance_serial (ieee L) [x]) (F64.zero false) = true) :=
  sqrt_isNaN_iff (variance_serial (ieee L) [x])

/-- C9, an instance: for the dataset `[1.0]` the variance is negative and the deviation
is a NaN. -/
theorem single_element_std_nan_witness :
    F64.lt (variance_serial (ieee refLibm) [F64.ofInt 1]) (F64.zero false) = true ∧
    F64.isNaN (detect_outliers_serial (ieee refLibm) [F64.ofInt 1] (F64.ofInt 3)).std_dev
      = true :=
  ⟨by decide!,
    (single_element_std_nan_iff refLibm (F64.ofInt 1) (F64.ofInt 3)).mpr (Or.inr (by decide!))⟩

/-- C9 fails as stated: for the single-element dataset `[0.0]` the variance handed to
`sqrt` is `+0`, which is not negative, and the deviation returned is `0.0`, not a NaN. -/
theorem single_element_zero_not_nan :
    variance_serial (ieee refLibm) [F64.zero false] = F64.zero false ∧
    F64.lt (variance_serial (ieee refLibm) [F64.zero false]) (F64.zero false) = false ∧
    (detect_outliers_serial (ieee refLibm) [F64.zero false] (F64.ofInt 3)).std_dev =
      F64.zero false ∧
    F64.isNaN (detect_outliers_serial (ieee refLibm) [F64.zero false] (F64.ofInt 3)).std_dev
      = false := by
  decide!

end SingleElement

/-! ## Generated data (C10)

The dataset of `generate_data` as a function of the percentage of outliers, and the
count detected on it. -/

section Generated

open F64

variable {α : Type}

theorem injectLoop_add (A : Arith α) (rand : Nat → Int) (RAND_MAX : Int) (N : Nat)
    (mean std_dev : α) (a b t : Nat) (arr : List α) :
    injectLoop A rand RAND_MAX N mean std_dev (a + b) t arr =
      injectLoop A rand RAND_MAX N mean std_dev b (t + 3 * a)
        (injectLoop A rand RAND_MAX N mean std_dev a t arr) := by
  induction a generalizing t arr with
  | zero => simp [injectLoop]
  | succ a ih =>
    rw [show a + 1 + b = (a + b) + 1 by omega]
    simp only [injectLoop]
    rw [ih]
    congr 1
    omega

/-- The overwrites keep the length of the array. -/
theorem injectLoop_length (A : Arith α) (rand : Nat → Int) (RAND_MAX : Int) (N : Nat)
    (mean std_dev : α) (n t : Nat) (arr : List α) :
    (injectLoop A rand RAND_MAX N mean std_dev n t arr).length = arr.length := by
  induction n generalizing t arr with
  | zero => rfl
  | succ n ih =>
    simp only [injectLoop]
    rw [ih, List.length_set]

/-- One turn of the second loop, made after `a` earlier turns, writes the value of
overwrite number `a` at its position. -/
theorem injectLoop_succ (A : Arith α) (rand : Nat → Int) (RAND_MAX : Int) (N : Nat)
    (mean std_dev : α) (n a : Nat) (arr : List α) :
    injectLoop A rand RAND_MAX N mean std_dev (n + 1) (2 * N + 3 * a) arr =
      injectLoop A rand RAND_MAX N mean std_dev n (2 * N + 3 * (a + 1))
        (arr.set (specOverwriteIndex rand N a)
          (specOverwriteValue A rand RAND_MAX N mean std_dev a)) := by
  rw [show 2 * N + 3 * (a + 1) = 2 * N + 3 * a + 3 by omega]
  rfl

/-- A position that none of the overwrites `a, …, a + n - 1` selects keeps its value. -/
theorem injectLoop_untouched (A : Arith α) (rand : Nat → Int) (RAND_MAX : Int) (N : Nat)
    (mean std_dev : α) (n a : Nat) (arr : List α) (i : Nat)
    (h : ∀ j, a ≤ j → j < a + n → specOverwriteIndex rand N j ≠ i) :
    (injectLoop A rand RAND_MAX N mean std_dev n (2 * N + 3 * a) arr)[i]? = arr[i]? := by
  induction n generalizing a arr with
  | zero => rfl
  | succ n ih =>
    rw [injectLoop_succ, ih (a + 1) _ (fun j h1 h2 => h j (by omega) (by omega))]
    exact List.getElem?_set_ne (h a (le_refl a) (by omega))

/-- A position of the array that overwrite `j` of `a, …, a + n - 1` selects, and no later
one of them, holds the value of overwrite `j`. -/
theorem injectLoop_written (A : Arith α) (rand : Nat → Int) (RAND_MAX : Int) (N : Nat)
    (mean std_dev : α) (n a : Nat) (arr : List α) (i j : Nat) (hi : i < arr.length)
    (h1 : a ≤ j) (h2 : j < a + n) (hj : specOverwriteIndex rand N j = i)
    (hlast : ∀ j2, j < j2 → j2 < a + n → specOverwriteIndex rand N j2 ≠ i) :
    (injectLoop A rand RAND_MAX N mean std_dev n (2 * N + 3 * a) arr)[i]? =
      some (specOverwriteValue A rand RAND_MAX N mean std_dev j) := by
  rw [show n = (j - a) + ((a + n - j - 1) + 1) by omega, injectLoop_add,
    show 2 * N + 3 * a + 3 * (j - a) = 2 * N + 3 * j by omega, Nat.add_comm (a + n - j - 1) 1,
    injectLoop_add]
  rw [show 2 * N + 3 * j + 3 * 1 = 2 * N + 3 * (j + 1) by omega,
    injectLoop_untouched A rand RAND_MAX N mean std_dev (a + n - j - 1) (j + 1) _ i
      (fun j2 h3 h4 => hlast j2 (by omega) (by omega))]
  rw [show (1 : Nat) = 0 + 1 from rfl, injectLoop_succ]
  simp only [injectLoop]
  rw [hj]
  apply List.getElem?_set_self
  rw [injectLoop_length]
  exact hi

/-- The first loop of `generate_data` fills `n` elements. -/
theorem gaussLoop_length (A : Arith α) (rand : Nat → Int) (RAND_MAX : Int)
    (mean std_dev : α) (n t : Nat) :
    (gaussLoop A rand RAND_MAX mean std_dev n t).length = n := by
  induction n generalizing t with
  | zero => rfl
  | succ n ih =>
    simp only [gaussLoop, List.length_cons]
    rw [ih]

theorem generate_data_length (A : Arith α) (rand : Nat → Int) (RAND_MAX : Int) (N : Nat)
    (mean std_dev : α) (p : Int) :
    (generate_data A rand RAND_MAX N mean std_dev p).length = N := by
  unfold generate_data
  rw [injectLoop_length, gaussLoop_length]

theorem wrapLong_of_range (z : Int) (h1 : -(2 ^ 63) ≤ z) (h2 : z < 2 ^ 63) : wrapLong z = z := by
  unfold wrapLong
  omega

theorem tdiv_toNat (a : Int) : (Int.tdiv a 100).toNat = (a / 100).toNat := by
  by_cases h : 0 ≤ a
  · rw [Int.tdiv_eq_ediv h (by decide)]
  · have h1 : Int.tdiv a 100 = -(Int.tdiv (-a) 100) := by
      rw [Int.neg_tdiv, neg_neg]
    rw [h1, Int.tdiv_eq_ediv (by omega) (by decide)]
    omega

/-- Where the product `N * p` fits a `long`, the number of overwrites grows with the
percentage. -/
theorem num_outliers_mono (N : Nat) (p1 p2 : Int) (h : p1 ≤ p2)
    (hlo : -(2 ^ 63) ≤ (N : Int) * p1) (hhi : (N : Int) * p2 < 2 ^ 63) :
    num_outliers N p1 ≤ num_outliers N p2 := by
  have hp : (N : Int) * p1 ≤ (N : Int) * p2 :=
    Int.mul_le_mul_of_nonneg_left h (Int.ofNat_nonneg N)
  unfold num_outliers
  rw [wrapLong_of_range _ hlo (lt_of_le_of_lt hp hhi),
    wrapLong_of_range _ (le_trans hlo hp) hhi, tdiv_toNat, tdiv_toNat]
  apply Int.toNat_le_toNat
  exact Int.ediv_le_ediv (by decide) hp

/-- Where the product `N * p` does not fit a `long` the number of overwrites is not the
quotient `(N * p) / 100` and does not grow with the percentage: for `N = 2 ^ 33` the
percentage `100` gives `2 ^ 33` overwrites and the percentage `2 ^ 30` gives none. -/
theorem num_outliers_wraps :
    num_outliers (2 ^ 33) 100 = 2 ^ 33 ∧ num_outliers (2 ^ 33) (2 ^ 30) = 0 := by
  decide

/-- C10 (amended): for a fixed `N`, mean, deviation and random stream and percentages
`p1 ≤ p2` whose products `N * p1` and `N * p2` fit a `long`, `generate_data` performs
`n1 = (N * p1) / 100` and `n2 = (N * p2) / 100` overwrites (none for a negative quotient)
with `n1 ≤ n2`, and the dataset for `p2` is the dataset for `p1` with the overwrites
`n1, …, n2 - 1` applied to it: both have `N` elements, a position that none of these
overwrites selects holds the same value in both, and a position `i < N` that overwrite
`j` of them selects, and no later one, holds `mean + factor * std_dev * (±1)` of
overwrite `j`. -/
theorem generate_data_extends (A : Arith α) (rand : Nat → Int) (RAND_MAX : Int) (N : Nat)
    (mean std_dev : α) (p1 p2 : Int) (h : p1 ≤ p2)
    (hlo : -(2 ^ 63) ≤ (N : Int) * p1) (hhi : (N : Int) * p2 < 2 ^ 63) :
    num_outliers N p1 = (Int.tdiv ((N : Int) * p1) 100).toNat ∧
    num_outliers N p2 = (Int.tdiv ((N : Int) * p2) 100).toNat ∧
    num_outliers N p1 ≤ num_outliers N p2 ∧
    (generate_data A rand RAND_MAX N mean std_dev p1).length = N ∧
    (generate_data A rand RAND_MAX N mean std_dev p2).length = N ∧
    generate_data A rand RAND_MAX N mean std_dev p2 =
      injectLoop A rand RAND_MAX N mean std_dev (num_outliers N p2 - num_outliers N p1)
        (2 * N + 3 * num_outliers N p1) (generate_data A rand RAND_MAX N mean std_dev p1) ∧
    (∀ i,
      (∀ j, num_outliers N p1 ≤ j → j < num_outliers N p2 → specOverwriteIndex rand N j ≠ i) →
      (generate_data A rand RAND_MAX N mean std_dev p2)[i]? =
        (generate_data A rand RAND_MAX N mean std_dev p1)[i]?) ∧
    (∀ i j, i < N → num_outliers N p1 ≤ j → j < num_outliers N p2 →
      specOverwriteIndex rand N j = i →
      (∀ j2, j < j2 → j2 < num_outliers N p2 → specOverwriteIndex rand N j2 ≠ i) →
      (generate_data A rand RAND_MAX N mean std_dev p2)[i]? =
        some (specOverwriteValue A rand RAND_MAX N mean std_dev j)) := by
  have hp : (N : Int) * p1 ≤ (N : Int) * p2 :=
    Int.mul_le_mul_of_nonneg_left h (Int.ofNat_nonneg N)
  have hle := num_outliers_mono N p1 p2 h hlo hhi
  have hext : generate_data A rand RAND_MAX N mean std_dev p2 =
      injectLoop A rand RAND_MAX N mean std_dev (num_outliers N p2 - num_outliers N p1)
        (2 * N + 3 * num_outliers N p1) (generate_data A rand RAND_MAX N mean std_dev p1) := by
    unfold generate_data
    rw [← injectLoop_add]
    congr 1
    omega
  refine ⟨?_, ?_, hle, generate_data_length _ _ _ _ _ _ _, generate_data_length _ _ _ _ _ _ _,
    hext, ?_, ?_⟩
  · unfold num_outliers
    rw [wrapLong_of_range _ hlo (lt_of_le_of_lt hp hhi)]
  · unfold num_outliers
    rw [wrapLong_of_range _ (le_trans hlo hp) hhi]
  · intro i hi
    rw [hext]
    exact injectLoop_untouched A rand RAND_MAX N mean std_dev _ _ _ i
      (fun j h1 h2 => hi j h1 (by omega))
  · intro i j hi h1 h2 hj hlast
    rw [hext]
    exact injectLoop_written A rand RAND_MAX N mean std_dev _ _ _ i j
      (by rw [generate_data_length]; exact hi) h1 (by omega) hj
      (fun j2 h3 h4 => hlast j2 h3 (by omega))

/-- C10, an instance: twelve draws on glibc with 9 and 17 per cent of outliers. The
first dataset has one overwrite and the second two; overwrite number 1 selects position
4, so the two datasets agree at position 3 and the second holds the value of overwrite
number 1 at position 4. -/
theorem generate_data_extends_witness :
    num_outliers 12 9 = 1 ∧ num_outliers 12 17 = 2 ∧
    specOverwriteIndex glibcRand 12 1 = 4 ∧
    (generate_data (ieee refLibm) glibcRand 2147483647 12 (F64.ofInt 100) (F64.ofInt 15) 17)[3]? =
      (generate_data (ieee refLibm) glibcRand 2147483647 12 (F64.ofInt 100) (F64.ofInt 15) 9)[3]? ∧
    (generate_data (ieee refLibm) glibcRand 2147483647 12 (F64.ofInt 100) (F64.ofInt 15) 17)[4]? =
      some (specOverwriteValue (ieee refLibm) glibcRand 2147483647 12 (F64.ofInt 100)
        (F64.ofInt 15) 1) :=
  have hone : ∀ j, num_outliers 12 9 ≤ j → j < num_outliers 12 17 → j = 1 := fun j h1 h2 => by
    have e1 : num_outliers 12 9 = 1 := by decide
    have e2 : num_outliers 12 17 = 2 := by decide
    omega
  ⟨by decide, by decide, by decide,
    (generate_data_extends (ieee refLibm) glibcRand 2147483647 12 (F64.ofInt 100) (F64.ofInt 15)
      9 17 (by decide) (by decide) (by decide)).2.2.2.2.2.2.1 3
      (fun j h1 h2 => by rw [hone j h1 h2]; decide),
    (generate_data_extends (ieee refLibm) glibcRand 2147483647 12 (F64.ofInt 100) (F64.ofInt 15)
      9 17 (by decide) (by decide) (by decide)).2.2.2.2.2.2.2 4 1 (by decide) (by decide)
      (by decide) (by decide) (fun j2 h3 h4 => by
        have e2 : num_outliers 12 17 = 2 := by decide
        omega)⟩

theorem pad_g01 :
    extra_compute (ieee refLibm) (F64.fin false 5711959409115478 (-46)) =
      F64.fin false 7006926366757385 (-43) := by
  decide!

theorem pad_g02 :
    extra_compute (ieee refLibm) (F64.fin false 6234293976724689 (-46)) =
      F64.fin false 8745702893947950 (-43) := by
  decide!

theorem pad_g03 :
    extra_compute (ieee refLibm) (F64.fin false 7035360723506281 (-46)) =
      F64.fin false 7332750863260354 (-43) := by
  decide!

theorem pad_g04 :
    extra_compute (ieee refLibm) (F64.fin false 7622424278903068 (-45)) =
      F64.fin false 4623813484065879 (-42) := by
  decide!

theorem pad_g05 :
    extra_compute (ieee refLibm) (F64.fin false 8651055480819182 (-46)) =
      F64.fin false 4565130627581274 (-42) := by
  decide!

theorem pad_g06 :
    extra_compute (ieee refLibm) (F64.fin false 7181477557870883 (-46)) =
      F64.fin false 8236698080681396 (-43) := by
  decide!

theorem pad_g07 :
    extra_compute (ieee refLibm) (F64.fin false 8088223462022528 (-46)) =
      F64.fin false 7905792656878213 (-43) := by
  decide!

theorem pad_g08 :
    extra_compute (ieee refLibm) (F64.fin false 7186474539048285 (-46)) =
      F64.fin false 8113122306925043 (-43) := by
  decide!

theorem pad_g09 :
    extra_compute (ieee refLibm) (F64.fin false 4794318452313040 (-46)) =
      F64.fin false 6640715744966183 (-43) := by
  decide!

theorem pad_g10 :
    extra_compute (ieee refLibm) (F64.fin false 6989171559471380 (-46)) =
      F64.fin false 7524605284173448 (-43) := by
  decide!

theorem pad_g11 :
    extra_compute (ieee refLibm) (F64.fin false 7076261767449710 (-46)) =
      F64.fin false 8179300785619389 (-43) := by
  decide!

theorem pad_g12 :
    extra_compute (ieee refLibm) (F64.fin false 5720207673782356 (-46)) =
      F64.fin false 7137005904621459 (-43) := by
  decide!

theorem pad_g13 :
    extra_compute (ieee refLibm) (F64.fin true 4884943302473128 (-47)) =
      F64.fin false 6026491505633419 (-43) := by
  decide!

theorem generated_9 : generated 9 = generated9Pads.map Prod.fst := by
  decide!

theorem generated9Pads_ok :
    List.Forall (fun xe => extra_compute (ieee refLibm) xe.1 = xe.2) generated9Pads := by
  simp only [generated9Pads, List.forall_cons, List.Forall]
  exact ⟨pad_g01, pad_g02, pad_g03, pad_g04, pad_g05, pad_g06, pad_g07, pad_g08, pad_g09, pad_g10,
    pad_g11, pad_g12⟩

theorem generated9_moments :
    moments (ieee refLibm)
      ((generated9Pads.map Prod.fst).foldl (sumStep (ieee refLibm))
        ((ieee refLibm).ofInt 0, (ieee refLibm).ofInt 0))
      ((generated9Pads.map Prod.fst).length : Int) =
      (F64.fin false 7492804430057629 (-46),
       F64.fin false 5092367225428782 (-47)) := by
  rw [foldl_sumStep_pads _ _ _ generated9Pads_ok]
  decide!

theorem generated9_passing :
    (generated9Pads.map Prod.fst).countP (isOutlier (ieee refLibm)
      (F64.fin false 7492804430057629 (-46))
      ((ieee refLibm).mul (F64.ofInt 3) (F64.fin false 5092367225428782 (-47)))) = 1 := by
  rw [countP_isOutlier_pads _ _ _ _ generated9Pads_ok]
  decide!

theorem generated9_count :
    (detect_outliers_serial (ieee refLibm) (generated 9) (F64.ofInt 3)).count = 1 := by
  rw [generated_9]
  exact count_of_moments (ieee refLibm) _ (F64.ofInt 3) _ _ 1 generated9_moments
    generated9_passing

theorem generated_17 : generated 17 = generated17Pads.map Prod.fst := by
  decide!

theorem generated17Pads_ok :
    List.Forall (fun xe => extra_compute (ieee refLibm) xe.1 = xe.2) generated17Pads := by
  simp only [generated17Pads, List.forall_cons, List.Forall]
  exact ⟨pad_g01, pad_g02, pad_g03, pad_g04, pad_g13, pad_g06, pad_g07, pad_g08, pad_g09, pad_g10,
    pad_g11, pad_g12⟩

theorem generated17_moments :
    moments (ieee refLibm)
      ((generated17Pads.map Prod.fst).foldl (sumStep (ieee refLibm))
        ((ieee refLibm).ofInt 0, (ieee refLibm).ofInt 0))
      ((generated17Pads.map Prod.fst).length : Int) =
      (F64.fin false 6568343835717581 (-46),
       F64.fin false 7414158718410102 (-47)) := by
  rw [foldl_sumStep_pads _ _ _ generated17Pads_ok]
  decide!

theorem generated17_passing :
    (generated17Pads.map Prod.fst).countP (isOutlier (ieee refLibm)
      (F64.fin false 6568343835717581 (-46))
      ((ieee refLibm).mul (F64.ofInt 3) (F64.fin false 7414158718410102 (-47)))) = 0 := by
  rw [countP_isOutlier_pads _ _ _ _ generated17Pads_ok]
  decide!

theorem generated17_count :
    (detect_outliers_serial (ieee refLibm) (generated 17) (F64.ofInt 3)).count = 0 := by
  rw [generated_17]
  exact count_of_moments (ieee refLibm) _ (F64.ofInt 3) _ _ 0 generated17_moments
    generated17_passing

/-- C10 fails as stated: with `N = 12`, mean `100.0`, deviation `15.0`, `k = 3.0` and the
random stream of glibc, the dataset generated with 9 per cent of outliers has one detected
outlier and the dataset generated with 17 per cent has none (the second injected value
widens the deviation until the first is no longer beyond three deviations). -/
theorem generated_count_not_monotone :
    (detect_outliers_serial (ieee refLibm) (generated 9) (F64.ofInt 3)).count = 1 ∧
    (detect_outliers_serial (ieee refLibm) (generated 17) (F64.ofInt 3)).count = 0 ∧
    ¬ ((detect_outliers_serial (ieee refLibm) (generated 9) (F64.ofInt 3)).count ≤
      (detect_outliers_serial (ieee refLibm) (generated 17) (F64.ofInt 3)).count) := by
  rw [generated9_count, generated17_count]
  decide

end Generated
end ZScore
